import Mathlib

/-!
Verification development for the DriveBeforeYouGo repository.

The repository's algorithmic core consists of two modules:
* `RouteAnalyzer` (junction scoring and selection) — shallowly embedded in
  the `RouteAnalyzer` namespace below.  Instruction-text pattern matching
  (JavaScript regular expressions over natural-language instructions) is
  embedded through a small executable matcher covering exactly the regex
  constructs the source patterns use (case-insensitive literals, `\s+`,
  `\d+`, two-way literal alternation, `s?`, `\b`).
* `RehearsalPlayer` (the playback sequencer) — embedded in the
  `RehearsalPlayer` namespace as a state structure with explicit
  wall-clock time passed to every operation that reads `Date.now()`.

Numbers are modelled as `ℚ` (JavaScript numbers on the values these
programs manipulate: metre counts, millisecond timestamps, speed
multipliers), scores as `ℤ`, and strings as `List Char`.  The two
transcendental geometric helpers of the source (`computeHeading`,
`haversineDistance`) have no executable rational form; they are modelled
as function parameters (`hdg`, `d`) threaded through the pipeline, and
the geometric theorems below hold for every choice of these parameters.
-/

unseal Rat.add Rat.sub Rat.mul Rat.inv Rat.ofScientific

deriving instance DecidableEq for Except

namespace RegexM

/-- One element of a source regular expression.  The source patterns use
only: case-insensitive literal runs, `\s+`, `\d+`, alternation of short
literals, an optional single character (`s?`), and word boundaries
(`\b`). -/
inductive RItem where
  | lit : List Char → RItem
  | ws : RItem
  | digits : RItem
  | alt : List (List Char) → RItem
  | opt : Char → RItem
  | bdry : RItem
deriving DecidableEq, Repr

/-- Whitespace class `\s` on the characters that occur in routing
instructions (space, tab, CR, LF). -/
def isWsChar (c : Char) : Bool :=
  c == ' ' || c == '\t' || c == '\n' || c == '\r'

/-- Digit class `\d`. -/
def isDigitChar (c : Char) : Bool :=
  '0' ≤ c && c ≤ '9'

/-- Word-character class `\w` = `[A-Za-z0-9_]`, used by `\b`. -/
def isWordChar (c : Char) : Bool :=
  let l := c.toLower
  ('a' ≤ l && l ≤ 'z') || isDigitChar c || c == '_'

/-- Word-character test on an optional character; the edge of the text
counts as a non-word character for `\b`. -/
def isWordOpt : Option Char → Bool
  | none => false
  | some c => isWordChar c

/-- Consume a case-insensitive literal from the front of the text,
returning the last consumed character (for later `\b` checks) and the
rest of the text. -/
def eatLit : List Char → Option Char → List Char → Option (Option Char × List Char)
  | [], prev, s => some (prev, s)
  | _ :: _, _, [] => none
  | c :: cs, _, t :: ts =>
      if t.toLower == c.toLower then eatLit cs (some t) ts else none

/-- Match a pattern against a prefix of `s`.  `prev` is the character
immediately before `s` in the full text (`none` at the start), used by
word boundaries.  `\s+` and `\d+` are consumed greedily; in every source
pattern the item following `\s+` (resp. `\d+`) cannot match a whitespace
(resp. digit) character, so greedy consumption agrees with backtracking
regex semantics on these patterns. -/
def matchItems : List RItem → Option Char → List Char → Bool
  | [], _, _ => true
  | RItem.lit l :: rest, prev, s =>
      match eatLit l prev s with
      | some (p, s2) => matchItems rest p s2
      | none => false
  | RItem.ws :: rest, _, s =>
      let run := s.takeWhile isWsChar
      if run.length == 0 then false
      else matchItems rest (some ' ') (s.drop run.length)
  | RItem.digits :: rest, _, s =>
      let run := s.takeWhile isDigitChar
      if run.length == 0 then false
      else matchItems rest (some '0') (s.drop run.length)
  | RItem.alt as :: rest, prev, s =>
      as.any fun a =>
        match eatLit a prev s with
        | some (p, s2) => matchItems rest p s2
        | none => false
  | RItem.opt c :: rest, prev, s =>
      (match s with
       | t :: ts => (t.toLower == c.toLower && matchItems rest (some t) ts)
       | [] => false)
      || matchItems rest prev s
  | RItem.bdry :: rest, prev, s =>
      (isWordOpt prev != isWordOpt s.head?) && matchItems rest prev s

/-- Search for a match starting at any position of the text, tracking the
character before each start position. -/
def testFrom (its : List RItem) (prev : Option Char) : List Char → Bool
  | [] => matchItems its prev []
  | c :: rest => matchItems its prev (c :: rest) || testFrom its (some c) rest

/-- `RegExp.test`: does the pattern match anywhere in the text
(case-insensitively)? -/
def test (its : List RItem) (s : List Char) : Bool :=
  testFrom its none s

end RegexM

namespace RouteAnalyzer

open RegexM

/-- Reason tags pushed by `scoreStep` (and the `lead-in` tag appended by
`selectRehearsalSteps`), named after the source strings
`lane-commitment`, `roundabout`, `roundabout-exit`, `small-roundabout`,
`short-window`, `signage`, `pressure`, `motorway-cruise`, `lead-in`. -/
inductive Reason where
  | laneCommitment
  | roundabout
  | roundaboutExit
  | smallRoundabout
  | shortWindow
  | signage
  | pressure
  | motorwayCruise
  | leadIn
deriving DecidableEq, Repr

/-- Junction types derived by `deriveType` (source strings `roundabout`,
`merge`, `fork`, `sharp-turn`, `uturn`, `complex`). -/
inductive JType where
  | roundabout
  | merge
  | fork
  | sharpTurn
  | uturn
  | complex
deriving DecidableEq, Repr

/-- Commitment levels returned by `getCommitmentLevel`. -/
inductive CLevel where
  | low
  | medium
  | high
deriving DecidableEq, Repr

/-- A latitude/longitude pair (the source's `LatLng`). -/
structure Coord where
  lat : ℚ
  lng : ℚ
deriving DecidableEq, Repr

/-- A step's `distance` object: numeric metres plus display text. -/
structure Distance where
  value : ℚ
  text : List Char
deriving DecidableEq, Repr

/-- A raw Directions step.  `Option` fields model properties that may be
absent (`undefined`) on malformed input. -/
structure RawStep where
  start_location : Option Coord
  end_location : Option Coord
  distance : Option Distance
  instructions : Option (List Char)
  maneuver : Option (List Char)
deriving DecidableEq, Repr

/-- A route leg: its steps, and the leg's `distance.value` when present
and numeric (the source checks `leg.distance && typeof
leg.distance.value === 'number'`). -/
structure Leg where
  steps : List RawStep
  distanceValue : Option ℚ
deriving DecidableEq, Repr

/-- A Directions route. -/
structure Route where
  legs : List Leg
deriving DecidableEq, Repr

/-- A Directions result (a list of candidate routes). -/
structure DirectionsResult where
  routes : List Route
deriving DecidableEq, Repr

/-- Output of `flattenSteps` for one step. -/
structure FStep where
  orderIndex : ℕ
  legIndex : ℕ
  stepIndex : ℕ
  heading : ℚ
  lat : ℚ
  lng : ℚ
  instructionHtml : List Char
  instruction : List Char
  distanceMeters : ℚ
  distanceText : List Char
  maneuver : Option (List Char)
deriving DecidableEq, Repr

/-- A flattened step together with its `scoreStep` output (the source
spreads `{ ...entry, ...scored }`); `isLeadIn` is set by
`selectRehearsalSteps` and is `false` (JavaScript `undefined` under
`Boolean`) until then. -/
structure SStep where
  orderIndex : ℕ
  legIndex : ℕ
  stepIndex : ℕ
  heading : ℚ
  lat : ℚ
  lng : ℚ
  instructionHtml : List Char
  instruction : List Char
  distanceMeters : ℚ
  distanceText : List Char
  maneuver : Option (List Char)
  score : ℤ
  reasons : List Reason
  exclude : Bool
  jtype : JType
  isPrimary : Bool
  isLeadIn : Bool
deriving DecidableEq, Repr

/-- The analyzer's output record (`analyze`'s per-point object literal).
`jtype` embeds the source field `type`. -/
structure DecisionPoint where
  index : ℕ
  stepIndex : ℕ
  legIndex : ℕ
  lat : ℚ
  lng : ℚ
  heading : ℚ
  instruction : List Char
  jtype : JType
  typeLabel : List Char
  isPrimary : Bool
  isLeadIn : Bool
  isDecisionPoint : Bool
  commitmentLevel : CLevel
  score : ℤ
  reasons : List Reason
  distanceMeters : ℚ
  distance : List Char
  maneuver : Option (List Char)
deriving DecidableEq, Repr

/-- `String.prototype.toLowerCase` on instruction text. -/
def toLowerStr (s : List Char) : List Char :=
  s.map Char.toLower

/-- `COMPLEX_MANEUVERS`: the maneuver-code → junction-type table. -/
def complexManeuver (m : List Char) : Option JType :=
  if m = "roundabout-left".toList then some JType.roundabout
  else if m = "roundabout-right".toList then some JType.roundabout
  else if m = "merge".toList then some JType.merge
  else if m = "fork-left".toList then some JType.fork
  else if m = "fork-right".toList then some JType.fork
  else if m = "ramp-left".toList then some JType.merge
  else if m = "ramp-right".toList then some JType.merge
  else if m = "turn-sharp-left".toList then some JType.sharpTurn
  else if m = "turn-sharp-right".toList then some JType.sharpTurn
  else if m = "uturn-left".toList then some JType.uturn
  else if m = "uturn-right".toList then some JType.uturn
  else none

/-- `ROUNDABOUT_PATTERNS`. -/
def ROUNDABOUT_PATTERNS : List (List RItem) :=
  [ [RItem.lit "roundabout".toList],
    [RItem.lit "exit".toList, RItem.ws, RItem.lit "the".toList, RItem.ws,
     RItem.lit "roundabout".toList],
    [RItem.lit "traffic".toList, RItem.ws, RItem.lit "circle".toList],
    [RItem.lit "gyratory".toList],
    [RItem.lit "rotary".toList],
    [RItem.lit "take".toList, RItem.ws, RItem.lit "the".toList, RItem.ws,
     RItem.digits, RItem.alt ["st".toList, "nd".toList, "rd".toList, "th".toList],
     RItem.ws, RItem.lit "exit".toList] ]

/-- `LANE_COMMITMENT_PATTERNS`. -/
def LANE_COMMITMENT_PATTERNS : List (List RItem) :=
  [ [RItem.lit "keep".toList, RItem.ws, RItem.lit "left".toList],
    [RItem.lit "keep".toList, RItem.ws, RItem.lit "right".toList],
    [RItem.lit "use".toList, RItem.ws, RItem.lit "the".toList, RItem.ws,
     RItem.lit "left".toList, RItem.ws, RItem.lit "lane".toList],
    [RItem.lit "use".toList, RItem.ws, RItem.lit "the".toList, RItem.ws,
     RItem.lit "right".toList, RItem.ws, RItem.lit "lane".toList],
    [RItem.lit "stay".toList, RItem.ws, RItem.lit "in".toList, RItem.ws,
     RItem.lit "the".toList, RItem.ws, RItem.lit "left".toList],
    [RItem.lit "stay".toList, RItem.ws, RItem.lit "in".toList, RItem.ws,
     RItem.lit "the".toList, RItem.ws, RItem.lit "right".toList],
    [RItem.lit "merge".toList],
    [RItem.lit "slip".toList, RItem.ws, RItem.lit "road".toList],
    [RItem.lit "exit".toList],
    [RItem.lit "take".toList, RItem.ws, RItem.lit "the".toList, RItem.ws,
     RItem.lit "ramp".toList],
    [RItem.lit "keep".toList, RItem.ws, RItem.lit "to".toList] ]

/-- `PREPARE_PATTERNS`. -/
def PREPARE_PATTERNS : List (List RItem) :=
  [ [RItem.lit "prepare".toList],
    [RItem.lit "keep".toList],
    [RItem.lit "merge".toList],
    [RItem.lit "exit".toList],
    [RItem.lit "take".toList, RItem.ws, RItem.lit "the".toList, RItem.ws,
     RItem.lit "ramp".toList] ]

/-- `VISUAL_OVERLOAD_PATTERNS`. -/
def VISUAL_OVERLOAD_PATTERNS : List (List RItem) :=
  [ [RItem.lit "sign".toList, RItem.opt 's'],
    [RItem.lit "towards".toList],
    [RItem.bdry, RItem.lit "a".toList, RItem.digits, RItem.bdry],
    [RItem.bdry, RItem.lit "m".toList, RItem.digits, RItem.bdry],
    [RItem.bdry, RItem.lit "b".toList, RItem.digits, RItem.bdry],
    [RItem.lit "destination".toList],
    [RItem.lit "follow".toList] ]

/-- `SOCIAL_PRESSURE_PATTERNS`. -/
def SOCIAL_PRESSURE_PATTERNS : List (List RItem) :=
  [ [RItem.lit "city".toList, RItem.ws, RItem.lit "centre".toList],
    [RItem.lit "airport".toList],
    [RItem.lit "hospital".toList] ]

/-- `COMPLEXITY_KEYWORDS`: ordered pattern → junction-type table. -/
def COMPLEXITY_KEYWORDS : List (List RItem × JType) :=
  [ ([RItem.lit "merge".toList, RItem.ws, RItem.lit "onto".toList], JType.merge),
    ([RItem.lit "take".toList, RItem.ws, RItem.lit "the".toList, RItem.ws,
      RItem.lit "ramp".toList], JType.merge),
    ([RItem.lit "keep".toList, RItem.ws,
      RItem.alt ["left".toList, "right".toList]], JType.fork),
    ([RItem.lit "fork".toList], JType.fork),
    ([RItem.lit "sharp".toList, RItem.ws,
      RItem.alt ["left".toList, "right".toList]], JType.sharpTurn),
    ([RItem.lit "u-turn".toList], JType.uturn),
    ([RItem.lit "lane".toList], JType.complex),
    ([RItem.lit "slip".toList, RItem.ws, RItem.lit "road".toList], JType.merge) ]

/-- Numeric constants of the analyzer. -/
def SPACING_METERS : ℚ := 150

/-- Hard minimum of the target decision-point count. -/
def MIN_TARGET_POINTS : ℤ := 6

/-- Hard maximum of the decision-point count. -/
def MAX_TARGET_POINTS : ℤ := 12

/-- `isDecisionPoint` score threshold. -/
def DECISION_SCORE_THRESHOLD : ℤ := 8

/-- `matchesAny(patterns, text)`. -/
def matchesAny (ps : List (List RItem)) (s : List Char) : Bool :=
  ps.any fun p => RegexM.test p s

/-- `hasExitOrdinal`: `/(\d+)(st|nd|rd|th)\s+exit/i`. -/
def hasExitOrdinal (s : List Char) : Bool :=
  RegexM.test
    [RItem.digits, RItem.alt ["st".toList, "nd".toList, "rd".toList, "th".toList],
     RItem.ws, RItem.lit "exit".toList] s

/-- `isMotorwayCruise`: a plain continuation with no lane/exit/merge cue. -/
def isMotorwayCruise (s : List Char) : Bool :=
  let isCruise :=
    RegexM.test [RItem.lit "continue".toList, RItem.ws, RItem.lit "on".toList,
      RItem.ws, RItem.alt ["a".toList, "m".toList], RItem.digits] s ||
    RegexM.test [RItem.lit "continue".toList, RItem.ws, RItem.lit "for".toList,
      RItem.ws, RItem.digits] s ||
    RegexM.test [RItem.lit "continue".toList, RItem.ws,
      RItem.lit "straight".toList] s
  let hasLaneCue :=
    matchesAny LANE_COMMITMENT_PATTERNS s ||
    RegexM.test [RItem.lit "exit".toList] s ||
    RegexM.test [RItem.lit "merge".toList] s
  isCruise && !hasLaneCue

/-- `isRoundaboutStep(step, instructionHtml)`: in the source the text
tested is `instructionHtml || step.instructions || ''`, which equals the
flattened `instructionHtml` field (itself `step.instructions || ''`). -/
def isRoundaboutStep (mv : Option (List Char)) (html : List Char) : Bool :=
  (match mv with
   | some m => complexManeuver m == some JType.roundabout
   | none => false) ||
  ROUNDABOUT_PATTERNS.any fun p => RegexM.test p html

/-- `hasComplexitySignal(step, instructionHtml)`: tests only the
instruction text (the maneuver code is not consulted). -/
def hasComplexitySignal (html : List Char) : Bool :=
  (COMPLEXITY_KEYWORDS.any fun kw => RegexM.test kw.1 html) ||
  (ROUNDABOUT_PATTERNS.any fun p => RegexM.test p html) ||
  (LANE_COMMITMENT_PATTERNS.any fun p => RegexM.test p html)

/-- `isPrepareStep(instruction)`. -/
def isPrepareStep (s : List Char) : Bool :=
  PREPARE_PATTERNS.any fun p => RegexM.test p s

/-- `isMajorManeuver(step)` on the step's maneuver code and instruction
text. -/
def isMajorManeuver (mv : Option (List Char)) (html : List Char) : Bool :=
  (match mv with
   | some m =>
       (complexManeuver m).isSome ||
       m == "turn-left".toList || m == "turn-right".toList
   | none => false) ||
  hasComplexitySignal html

/-- `deriveType(step, instructionHtml)`. -/
def deriveType (mv : Option (List Char)) (html : List Char) : JType :=
  if isRoundaboutStep mv html then JType.roundabout
  else
    match mv with
    | some m =>
        match complexManeuver m with
        | some t => t
        | none =>
            match COMPLEXITY_KEYWORDS.find? (fun kw => RegexM.test kw.1 html) with
            | some kw => kw.2
            | none => JType.complex
    | none =>
        match COMPLEXITY_KEYWORDS.find? (fun kw => RegexM.test kw.1 html) with
        | some kw => kw.2
        | none => JType.complex

/-- `getCommitmentLevel(step)` from the step's reason tags. -/
def getCommitmentLevel (reasons : List Reason) : CLevel :=
  let hasLane := reasons.contains Reason.laneCommitment
  let hasShort := reasons.contains Reason.shortWindow
  let hasRExit := reasons.contains Reason.roundaboutExit
  if (hasLane && hasShort) || (hasRExit && hasLane) then CLevel.high
  else if hasLane || hasShort || hasRExit then CLevel.medium
  else CLevel.low

/-- `formatTypeLabel(type)`. -/
def formatTypeLabel : JType → List Char
  | JType.roundabout => "Roundabout".toList
  | JType.merge => "Merge".toList
  | JType.fork => "Fork / Lane Split".toList
  | JType.sharpTurn => "Sharp Turn".toList
  | JType.uturn => "U-Turn".toList
  | JType.complex => "Tricky Junction".toList

/-- Output record of `scoreStep`. -/
structure ScoreOut where
  score : ℤ
  reasons : List Reason
  exclude : Bool
  jtype : JType
  isPrimary : Bool
deriving DecidableEq, Repr

/-- `scoreStep(entry, context)`.  The source reads only `context.next`
(`context.prev` is never used), so the embedding takes the next step
directly. -/
def scoreStep (entry : FStep) (next : Option FStep) : ScoreOut :=
  let lower := toLowerStr entry.instruction
  let html := entry.instructionHtml
  if isMotorwayCruise lower then
    ⟨0, [Reason.motorwayCruise], true, deriveType entry.maneuver html, false⟩
  else
    let lane := matchesAny LANE_COMMITMENT_PATTERNS lower
    let score1 : ℤ := if lane then 6 else 0
    let reasons1 : List Reason := if lane then [Reason.laneCommitment] else []
    let isR := isRoundaboutStep entry.maneuver html
    let sr2 : ℤ × List Reason :=
      if isR then
        if hasExitOrdinal lower then
          (score1 + 4 + 2, reasons1 ++ [Reason.roundabout, Reason.roundaboutExit])
        else if 0 < entry.distanceMeters ∧ entry.distanceMeters < 120 then
          (score1 + 4 - 3, reasons1 ++ [Reason.roundabout, Reason.smallRoundabout])
        else (score1 + 4, reasons1 ++ [Reason.roundabout])
      else (score1, reasons1)
    let sr3 : ℤ × List Reason :=
      match next with
      | some n =>
          if isPrepareStep lower && isMajorManeuver n.maneuver n.instructionHtml then
            let nd := n.distanceMeters
            if 0 < nd ∧ nd ≤ 120 then (sr2.1 + 6, sr2.2 ++ [Reason.shortWindow])
            else if 0 < nd ∧ nd ≤ 250 then (sr2.1 + 4, sr2.2 ++ [Reason.shortWindow])
            else sr2
          else sr2
      | none => sr2
    let sr4 : ℤ × List Reason :=
      if matchesAny VISUAL_OVERLOAD_PATTERNS html ||
         matchesAny VISUAL_OVERLOAD_PATTERNS lower then
        (sr3.1 + 2, sr3.2 ++ [Reason.signage])
      else sr3
    let sr5 : ℤ × List Reason :=
      if matchesAny SOCIAL_PRESSURE_PATTERNS lower then
        (sr4.1 + 1, sr4.2 ++ [Reason.pressure])
      else sr4
    if !hasComplexitySignal html && sr5.1 == 0 then
      ⟨0, sr5.2, true, deriveType entry.maneuver html, false⟩
    else ⟨sr5.1, sr5.2, false, deriveType entry.maneuver html, isR⟩

/-- Tag-stripping automaton: the flag records whether the scan is
inside a `<...>` tag span. -/
def stripHtmlGo : Bool → List Char → List Char
  | _, [] => []
  | true, c :: rest =>
      if c = '>' then stripHtmlGo false rest else stripHtmlGo true rest
  | false, c :: rest =>
      if c = '<' then stripHtmlGo true rest else c :: stripHtmlGo false rest

/-- `stripHtml(html)`: the source extracts `textContent` from a scratch
DOM element; on the simple markup the routing service emits this is
removal of every `<...>` tag span (entities are not modelled — the
instruction texts of interest contain none). -/
def stripHtml (l : List Char) : List Char :=
  stripHtmlGo false l

/-- Flatten a single raw step.  The source reads
`step.start_location.lat()` and computes the heading from both endpoint
coordinates with no guard, so a step missing either coordinate raises a
`TypeError`, modelled as `Except.error`.  Missing `distance` defaults to
`0` / `''` and missing `instructions` to `''`. -/
def flattenStep1 (hdg : Coord → Coord → ℚ) (legIndex stepIndex orderIndex : ℕ)
    (s : RawStep) : Except Unit FStep :=
  match s.start_location, s.end_location with
  | some sl, some el =>
      Except.ok
        { orderIndex := orderIndex, legIndex := legIndex, stepIndex := stepIndex,
          heading := hdg sl el, lat := sl.lat, lng := sl.lng,
          instructionHtml := s.instructions.getD [],
          instruction := stripHtml (s.instructions.getD []),
          distanceMeters := (s.distance.map Distance.value).getD 0,
          distanceText := (s.distance.map Distance.text).getD [],
          maneuver := s.maneuver }
  | _, _ => Except.error ()

/-- Flatten the steps of one leg, threading the running `orderIndex`. -/
def flattenLegSteps (hdg : Coord → Coord → ℚ) (legIndex : ℕ) :
    ℕ → ℕ → List RawStep → Except Unit (List FStep)
  | _, _, [] => Except.ok []
  | ord, si, s :: rest => do
      let f ← flattenStep1 hdg legIndex si ord s
      let fs ← flattenLegSteps hdg legIndex (ord + 1) (si + 1) rest
      Except.ok (f :: fs)

/-- Flatten all legs (`flattenSteps`' outer loop). -/
def flattenLegs (hdg : Coord → Coord → ℚ) :
    ℕ → ℕ → List Leg → Except Unit (List FStep)
  | _, _, [] => Except.ok []
  | ord, li, leg :: rest => do
      let fs ← flattenLegSteps hdg li ord 0 leg.steps
      let more ← flattenLegs hdg (ord + leg.steps.length) (li + 1) rest
      Except.ok (fs ++ more)

/-- `flattenSteps(route)`, parameterised by the heading computation
(`computeHeading` in the source, a transcendental great-circle initial
bearing). -/
def flattenSteps (hdg : Coord → Coord → ℚ) (route : Route) :
    Except Unit (List FStep) :=
  flattenLegs hdg 0 0 route.legs

/-- Attach a `scoreStep` result to a flattened step. -/
def attachScore (e : FStep) (o : ScoreOut) : SStep :=
  { orderIndex := e.orderIndex, legIndex := e.legIndex, stepIndex := e.stepIndex,
    heading := e.heading, lat := e.lat, lng := e.lng,
    instructionHtml := e.instructionHtml, instruction := e.instruction,
    distanceMeters := e.distanceMeters, distanceText := e.distanceText,
    maneuver := e.maneuver, score := o.score, reasons := o.reasons,
    exclude := o.exclude, jtype := o.jtype, isPrimary := o.isPrimary,
    isLeadIn := false }

/-- `scoreSteps(steps)`: each step is scored in the context of its
successor (`steps[idx+1] || null`; the predecessor is passed in the
source but never read). -/
def scoreSteps : List FStep → List SStep
  | [] => []
  | e :: rest => attachScore e (scoreStep e rest.head?) :: scoreSteps rest

/-- `clamp(value, min, max)` = `Math.max(min, Math.min(max, value))`. -/
def clamp (value lo hi : ℤ) : ℤ :=
  max lo (min hi value)

/-- `Math.round` on the rationals: round half toward positive infinity. -/
def jsRound (q : ℚ) : ℤ :=
  Rat.floor (q + 1 / 2)

/-- Total route distance in metres: legs whose `distance.value` is a
number contribute; others are skipped. -/
def routeTotalMeters (route : Route) : ℚ :=
  route.legs.foldl (fun acc leg => acc + leg.distanceValue.getD 0) 0

/-- `getTargetCount(route)`: `8` when the total is zero, otherwise
`clamp(round(km / 7) + 5, 6, 12)`. -/
def getTargetCount (route : Route) : ℤ :=
  let totalMeters := routeTotalMeters route
  if totalMeters = 0 then 8
  else clamp (jsRound (totalMeters / 1000 / 7) + 5) MIN_TARGET_POINTS MAX_TARGET_POINTS

/-- `isTooClose(candidate, selected, thresholdMeters)`, parameterised by
the distance function (`haversineDistance` in the source). -/
def isTooClose (d : ℚ → ℚ → ℚ → ℚ → ℚ) (c : SStep) (selected : List SStep) : Bool :=
  selected.any fun e => decide (d c.lat c.lng e.lat e.lng < SPACING_METERS)

/-- The greedy acceptance loop of `selectRehearsalSteps`: walk the
sorted candidates, stop at the target count, skip candidates too close
to an already-accepted one. -/
def greedyPick (d : ℚ → ℚ → ℚ → ℚ → ℚ) (target : ℤ) :
    List SStep → List SStep → List SStep
  | acc, [] => acc
  | acc, c :: rest =>
      if target ≤ (acc.length : ℤ) then acc
      else if isTooClose d c acc then greedyPick d target acc rest
      else greedyPick d target (acc ++ [c]) rest

/-- `getLeadInStep(step, steps)`: the immediate predecessor in the full
flattened list (`steps[step.orderIndex - 1]`; `undefined` → `null` when
`orderIndex` is `0`), kept when it travels more than 40 m or reads as a
prepare instruction. -/
def getLeadInStep (step : SStep) (steps : List SStep) : Option SStep :=
  if step.orderIndex = 0 then none
  else
    match steps.get? (step.orderIndex - 1) with
    | none => none
    | some prev =>
        if 40 < prev.distanceMeters || isPrepareStep (toLowerStr prev.instruction)
        then some prev else none

/-- `Map.prototype.set` keyed by `orderIndex` (replace or append). -/
def mapSet (m : List SStep) (v : SStep) : List SStep :=
  if m.any fun x => x.orderIndex == v.orderIndex then
    m.map fun x => if x.orderIndex == v.orderIndex then v else x
  else m ++ [v]

/-- `if (!map.has(k)) map.set(k, v)` keyed by `orderIndex`. -/
def mapSetIfAbsent (m : List SStep) (v : SStep) : List SStep :=
  if m.any fun x => x.orderIndex == v.orderIndex then m else m ++ [v]

/-- Candidate comparator of `selectRehearsalSteps` (`b.score - a.score`,
ties by `a.orderIndex - b.orderIndex`): score descending, original order
ascending.  JavaScript `Array.prototype.sort` is stable; so is
`List.insertionSort`. -/
def selBefore (a b : SStep) : Prop :=
  b.score < a.score ∨ (a.score = b.score ∧ a.orderIndex ≤ b.orderIndex)

instance : DecidableRel selBefore := fun a b => by
  unfold selBefore; infer_instance

/-- Ascending-score comparator used by `trimToMaxPoints`. -/
def scoreAsc (a b : SStep) : Prop :=
  a.score ≤ b.score

instance : DecidableRel scoreAsc := fun a b => by
  unfold scoreAsc; infer_instance

/-- Ascending original-order comparator for the final sort. -/
def ordAsc (a b : SStep) : Prop :=
  a.orderIndex ≤ b.orderIndex

instance : DecidableRel ordAsc := fun a b => by
  unfold ordAsc; infer_instance

/-- One `while (result.length > max && queue.length)` removal loop of
`trimToMaxPoints`: while over the cap, remove from `result` every entry
sharing the next queued element's `orderIndex`. -/
def dropQueue (maxN : ℕ) : List SStep → List SStep → List SStep
  | res, [] => res
  | res, q :: rest =>
      if maxN < res.length then
        dropQueue maxN (res.filter fun x => x.orderIndex != q.orderIndex) rest
      else res

/-- `trimToMaxPoints(points)`: drop lowest-score lead-ins first, then
lowest-score main points, and re-sort by original order. -/
def trimToMaxPoints (points : List SStep) : List SStep :=
  let leadQueue := List.insertionSort scoreAsc (points.filter fun pt => pt.isLeadIn)
  let res1 := dropQueue 12 points leadQueue
  if 12 < res1.length then
    let mainQueue := List.insertionSort scoreAsc (res1.filter fun pt => !pt.isLeadIn)
    List.insertionSort ordAsc (dropQueue 12 res1 mainQueue)
  else List.insertionSort ordAsc res1

/-- A selected main entry: the step with `isLeadIn: false`. -/
def mkMain (s : SStep) : SStep :=
  { s with isLeadIn := false }

/-- The first `forEach` of `selectRehearsalSteps`: enter every selected
main step into the order-indexed map with `isLeadIn: false`. -/
def buildMains (l : List SStep) (m : List SStep) : List SStep :=
  l.foldl (fun m s => mapSet m (mkMain s)) m

/-- A lead-in entry: the predecessor step tagged `isLeadIn: true` with
an appended `lead-in` reason. -/
def mkLeadIn (li : SStep) : SStep :=
  { li with isLeadIn := true, reasons := li.reasons ++ [Reason.leadIn] }

/-- The second `forEach` of `selectRehearsalSteps`: add each selected
step's lead-in predecessor (when it exists and is not already present)
tagged `isLeadIn: true` with an appended `lead-in` reason. -/
def addLeadIns (steps : List SStep) (l : List SStep) (m : List SStep) :
    List SStep :=
  l.foldl
    (fun m s =>
      match getLeadInStep s steps with
      | none => m
      | some li => mapSetIfAbsent m (mkLeadIn li))
    m

/-- `selectRehearsalSteps(steps, route)`, parameterised by the distance
function `d` (`haversineDistance` in the source). -/
def selectRehearsalSteps (d : ℚ → ℚ → ℚ → ℚ → ℚ) (steps : List SStep)
    (route : Route) : List SStep :=
  let target := getTargetCount route
  let candidates := steps.filter fun s => decide (0 < s.score) && !s.exclude
  let sorted := List.insertionSort selBefore candidates
  let selectedMain := greedyPick d target [] sorted
  let merged := addLeadIns steps selectedMain (buildMains selectedMain [])
  let result := List.insertionSort ordAsc merged
  if 12 < result.length then trimToMaxPoints result else result

/-- The per-point object literal at the end of `analyze`. -/
def mkDP (idx : ℕ) (s : SStep) : DecisionPoint :=
  { index := idx, stepIndex := s.stepIndex, legIndex := s.legIndex,
    lat := s.lat, lng := s.lng, heading := s.heading,
    instruction := s.instruction, jtype := s.jtype,
    typeLabel := formatTypeLabel s.jtype, isPrimary := s.isPrimary,
    isLeadIn := s.isLeadIn,
    isDecisionPoint := decide (DECISION_SCORE_THRESHOLD ≤ s.score),
    commitmentLevel := getCommitmentLevel s.reasons, score := s.score,
    reasons := s.reasons, distanceMeters := s.distanceMeters,
    distance := s.distanceText, maneuver := s.maneuver }

/-- `analyze(result)`: empty output for a missing result or empty route
list, otherwise the full flatten → score → select → map pipeline on the
first route.  Exceptions raised inside (missing coordinates) propagate
as `Except.error`. -/
def analyze (hdg : Coord → Coord → ℚ) (d : ℚ → ℚ → ℚ → ℚ → ℚ)
    (result : Option DirectionsResult) : Except Unit (List DecisionPoint) :=
  match result with
  | none => Except.ok []
  | some res =>
      match res.routes with
      | [] => Except.ok []
      | route :: _ => do
          let flat ← flattenSteps hdg route
          let scored := scoreSteps flat
          let sel := selectRehearsalSteps d scored route
          Except.ok (sel.enum.map fun p => mkDP p.1 p.2)

end RouteAnalyzer

namespace RehearsalPlayer

/-- The fields of a decision point the player reads or writes: position,
heading, the `isDecisionPoint` flag (dwell multiplier), and the
`dwellSeconds` telemetry field the player owns (`none` until first
recorded). -/
structure PPoint where
  lat : ℚ
  lng : ℚ
  heading : ℚ
  isDecisionPoint : Bool
  dwellSeconds : Option ℚ
deriving DecidableEq, Repr

/-- The player's module-level state.  `playTimer` holds the delay (ms)
of the pending auto-advance timer, `none` when no timer is pending.
`lastShownAt` is the `Date.now()` timestamp (ms) at which the current
point was shown.  Wall-clock reads are passed explicitly as `now`. -/
structure PState where
  points : List PPoint
  currentIndex : ℕ
  isPlaying : Bool
  playTimer : Option ℚ
  speed : ℚ
  lastShownAt : Option ℚ
deriving DecidableEq, Repr

/-- `BASE_DWELL` (ms). -/
def BASE_DWELL : ℚ := 5000

/-- `DECISION_DWELL_MULTIPLIER` (the JavaScript literal `1.6`). -/
def DECISION_DWELL_MULTIPLIER : ℚ := 8 / 5

/-- `recordCurrentDwell()`: when a show-timestamp exists and the current
index is in bounds, write the elapsed seconds into the current point's
`dwellSeconds`; always clear `lastShownAt`. -/
def recordCurrentDwell (s : PState) (now : ℚ) : PState :=
  match s.lastShownAt, s.points.get? s.currentIndex with
  | some t, some pt =>
      { s with
        points := s.points.set s.currentIndex
          { pt with dwellSeconds := some ((now - t) / 1000) },
        lastShownAt := none }
  | _, _ => { s with lastShownAt := none }

/-- `showPoint(index)`: bounds-guarded; records the outgoing point's
dwell, moves the index, stamps `lastShownAt`. -/
def showPoint (s : PState) (idx : ℕ) (now : ℚ) : PState :=
  if s.points.length ≤ idx then s
  else
    let s1 := recordCurrentDwell s now
    { s1 with currentIndex := idx, lastShownAt := some now }

/-- `pause()`: stop playing and cancel any pending timer. -/
def pause (s : PState) : PState :=
  { s with isPlaying := false, playTimer := none }

mutual

/-- `next()` and `scheduleNext()` are mutually recursive through the
skip sentinel (`speed === 0` advances immediately); the `fuel` argument
bounds the chain, which in the source terminates because each advance
increases `currentIndex`.  Callers supply fuel larger than the chain
length. -/
def nextF : ℕ → PState → ℚ → PState
  | 0, s, _ => s
  | Nat.succ f, s, now =>
      if s.currentIndex < s.points.length - 1 then
        let s1 := showPoint s (s.currentIndex + 1) now
        if s1.isPlaying then scheduleNextF f s1 now else s1
      else pause (recordCurrentDwell s now)

/-- `scheduleNext()`: cancel the pending timer; stop at the end; with
the skip sentinel advance immediately; otherwise arm the timer with
`BASE_DWELL / speed`, times `DECISION_DWELL_MULTIPLIER` when the current
point is a decision point. -/
def scheduleNextF : ℕ → PState → ℚ → PState
  | 0, s, _ => s
  | Nat.succ f, s, now =>
      let s1 := { s with playTimer := none }
      if !s1.isPlaying then s1
      else if s1.points.length - 1 ≤ s1.currentIndex then
        pause (recordCurrentDwell s1 now)
      else if s1.speed = 0 then nextF f s1 now
      else
        let delay := BASE_DWELL / s1.speed
        let delay :=
          match s1.points.get? s1.currentIndex with
          | some pt =>
              if pt.isDecisionPoint then delay * DECISION_DWELL_MULTIPLIER else delay
          | none => delay
        { s1 with playTimer := some delay }
end

/-- `next()` with sufficient fuel. -/
def next (s : PState) (now : ℚ) : PState :=
  nextF (2 * s.points.length + 4) s now

/-- `scheduleNext()` with sufficient fuel. -/
def scheduleNext (s : PState) (now : ℚ) : PState :=
  scheduleNextF (2 * s.points.length + 4) s now

/-- `init(container, decisionPoints, updateCallback)`: reset all state
and show the first point.  The panorama constructor reads
`points[0].lat` with no guard, so an empty list raises a `TypeError`,
modelled as `Except.error`. -/
def init (pts : List PPoint) (now : ℚ) : Except Unit PState :=
  let s0 : PState :=
    { points := pts, currentIndex := 0, isPlaying := false, playTimer := none,
      speed := 1, lastShownAt := none }
  match pts with
  | [] => Except.error ()
  | _ :: _ => Except.ok (showPoint s0 0 now)

/-- `play()`: no-op on an empty point list, else start playing and arm
the timer. -/
def play (s : PState) (now : ℚ) : PState :=
  if s.points.length = 0 then s
  else scheduleNext { s with isPlaying := true } now

/-- `prev()`: move back one point when not at the start. -/
def prev (s : PState) (now : ℚ) : PState :=
  if 0 < s.currentIndex then
    let s1 := showPoint s (s.currentIndex - 1) now
    if s1.isPlaying then scheduleNext s1 now else s1
  else s

/-- `setSpeed(newSpeed)`: store the speed; when playing and the new
speed is the skip sentinel `0`, cancel the timer and advance at once. -/
def setSpeed (s : PState) (v : ℚ) (now : ℚ) : PState :=
  let s1 := { s with speed := v }
  if s1.isPlaying && decide (v = 0) then next { s1 with playTimer := none } now
  else s1

/-- `goTo(index)`: jump to an index (bounds-guarded by `showPoint`),
re-arming the timer when playing. -/
def goTo (s : PState) (idx : ℕ) (now : ℚ) : PState :=
  let s1 := showPoint s idx now
  if s1.isPlaying then scheduleNext s1 now else s1

/-- The state snapshot returned by `getState()`.  `isLast` compares
`currentIndex === points.length - 1` with JavaScript number semantics
(the empty list gives `-1`), hence the `ℤ` comparison. -/
structure PSnapshot where
  currentIndex : ℕ
  total : ℕ
  point : Option PPoint
  isPlaying : Bool
  speed : ℚ
  progress : ℚ
  isFirst : Bool
  isLast : Bool
deriving DecidableEq, Repr

/-- `getState()`. -/
def getState (s : PState) : PSnapshot :=
  { currentIndex := s.currentIndex, total := s.points.length,
    point := s.points.get? s.currentIndex, isPlaying := s.isPlaying,
    speed := s.speed,
    progress :=
      if 0 < s.points.length then
        ((s.currentIndex : ℚ) + 1) / (s.points.length : ℚ) * 100
      else 0,
    isFirst := s.currentIndex == 0,
    isLast := (s.currentIndex : ℤ) == (s.points.length : ℤ) - 1 }

/-- `destroy()`: pause, record the final dwell, release the points.  The
second component is the point array as the caller's retained reference
observes it after the dwell write (the source reassigns the module
variable to `[]` but the caller's array object keeps the writes). -/
def destroy (s : PState) (now : ℚ) : PState × List PPoint :=
  let s2 := recordCurrentDwell (pause s) now
  ({ s2 with points := [], lastShownAt := none }, s2.points)

end RehearsalPlayer

/-! ### Concrete inputs used by the claim theorems and witnesses -/

open RouteAnalyzer RehearsalPlayer

/-- The step of the spec's roundabout scenario: text "At the roundabout,
take the 2nd exit", maneuver `roundabout-right`, distance 80 m. -/
def c1Step : FStep :=
  { orderIndex := 0, legIndex := 0, stepIndex := 0, heading := 0, lat := 0,
    lng := 0,
    instructionHtml := "At the roundabout, take the 2nd exit".toList,
    instruction := "At the roundabout, take the 2nd exit".toList,
    distanceMeters := 80, distanceText := "80 m".toList,
    maneuver := some "roundabout-right".toList }

/-- A trivial heading function standing in for the transcendental
`computeHeading` in concrete evaluations. -/
def hdg0 : Coord → Coord → ℚ := fun _ _ => 0

/-- A constant (hence symmetric) distance function standing in for the
transcendental `haversineDistance` in concrete evaluations. -/
def d0 : ℚ → ℚ → ℚ → ℚ → ℚ := fun _ _ _ _ => 1000

/-- A raw step whose instruction scores 8 (lane commitment via `merge`,
signage via `M4`). -/
def wRaw : RawStep :=
  { start_location := some ⟨0, 0⟩, end_location := some ⟨1, 1⟩,
    distance := some ⟨100, "0.1 km".toList⟩,
    instructions := some "Merge onto the M4".toList, maneuver := none }

/-- A 70 km single-leg route around `wRaw`. -/
def wRoute : Route := { legs := [{ steps := [wRaw], distanceValue := some 70000 }] }

/-- A Directions result holding `wRoute`. -/
def wResult : DirectionsResult := { routes := [wRoute] }

/-- The single decision point `analyze` produces from `wResult`. -/
def wDP : DecisionPoint :=
  { index := 0, stepIndex := 0, legIndex := 0, lat := 0, lng := 0, heading := 0,
    instruction := "Merge onto the M4".toList, jtype := JType.merge,
    typeLabel := "Merge".toList, isPrimary := false, isLeadIn := false,
    isDecisionPoint := true, commitmentLevel := CLevel.medium, score := 8,
    reasons := [Reason.laneCommitment, Reason.signage], distanceMeters := 100,
    distance := "0.1 km".toList, maneuver := none }

/-- A decision point for player scenarios (flagged as a decision point). -/
def pA : PPoint :=
  { lat := 0, lng := 0, heading := 0, isDecisionPoint := true, dwellSeconds := none }

/-- A second, ordinary player point. -/
def pB : PPoint :=
  { lat := 1, lng := 1, heading := 0, isDecisionPoint := false, dwellSeconds := none }

/-! ### C1 — roundabout-with-exit-ordinal scenario -/

/-- C1 counterexample: on the spec's own scenario step the score is not
6 and the `lane-commitment` reason IS present — the text "take the 2nd
exit" matches the `/exit/i` lane-commitment pattern, adding 6. -/
theorem c1_scenario_counterexample :
    (RouteAnalyzer.scoreStep c1Step none).score ≠ 6 ∧
      Reason.laneCommitment ∈ (RouteAnalyzer.scoreStep c1Step none).reasons := by
  decide

/-- C1 amended: the scenario step scores 6 (lane commitment, matched by
"exit") + 4 (roundabout) + 2 (exit ordinal) = 12, with reasons
`lane-commitment`, `roundabout`, `roundabout-exit`, junction type
`roundabout`, not excluded, and `isPrimary = true`. -/
theorem c1_scenario_amended :
    RouteAnalyzer.scoreStep c1Step none =
      { score := 12,
        reasons := [Reason.laneCommitment, Reason.roundabout, Reason.roundaboutExit],
        exclude := false, jtype := JType.roundabout, isPrimary := true } := by
  decide

/-! ### C5 — target decision-point count -/

/-- The spec's stated target-count formula, written from the spec's
words for comparison with the source's `getTargetCount`:
`round(totalKilometers / 7) + 5`, clamped to `[6, 12]`. -/
def specTargetCount (totalKm : ℚ) : ℤ :=
  clamp (jsRound (totalKm / 7) + 5) 6 12

/-- The 70 km route of the spec's scenario. -/
def route70 : Route := { legs := [{ steps := [], distanceValue := some 70000 }] }

/-- A route with no legs (total distance 0). -/
def route0 : Route := { legs := [] }

/-- C5 counterexample: on a route of total length 0 the source returns
the hard-coded default 8, while the claim's formula gives
`clamp(round(0/7) + 5, 6, 12) = 6`. -/
theorem c5_zero_route_counterexample :
    RouteAnalyzer.getTargetCount route0 = 8 ∧ specTargetCount 0 = 6 := by
  decide

/-- C5 amended: for every route of nonzero total distance the target
count is `round(totalKm / 7) + 5` clamped to `[6, 12]`, and the 70 km
scenario route yields 12. -/
theorem c5_target_count :
    (∀ route : Route, routeTotalMeters route ≠ 0 →
        RouteAnalyzer.getTargetCount route =
          specTargetCount (routeTotalMeters route / 1000)) ∧
      RouteAnalyzer.getTargetCount route70 = 12 := by
  constructor
  · intro route h
    simp [RouteAnalyzer.getTargetCount, specTargetCount, h,
      MIN_TARGET_POINTS, MAX_TARGET_POINTS]
  · decide

/-- C5 witness: the 70 km route has nonzero total distance and the
amended formula applies to it. -/
theorem c5_witness :
    routeTotalMeters route70 ≠ 0 ∧
      RouteAnalyzer.getTargetCount route70 =
        specTargetCount (routeTotalMeters route70 / 1000) :=
  ⟨by decide, c5_target_count.1 route70 (by decide)⟩

/-! ### C2 — pause/destroy and dwell finalization -/

/-- C2 counterexample: init two points at t=1000, play, then pause.
The point has been shown since t=1000 (`lastShownAt`), pause cancels the
pending timer, but no `dwellSeconds` is written — `pause()` never calls
`recordCurrentDwell()`, contradicting the claim that it finalizes the
current point's dwell before returning. -/
theorem c2_pause_counterexample :
    (RehearsalPlayer.init [pA, pB] 1000).map (fun s =>
        let s2 := RehearsalPlayer.pause (RehearsalPlayer.play s 1000)
        (s2.points.map PPoint.dwellSeconds, s2.playTimer, s2.lastShownAt)) =
      Except.ok ([none, none], none, some 1000) := by
  decide

/-- C2 amended: `destroy()` cancels any pending timer and writes the
elapsed dwell into the current point (observable through the caller's
retained array) before returning; `pause()` cancels the timer but does
not record dwell — dwell is written when the current point changes or on
destroy. -/
theorem c2_destroy_records (s : PState) (now t : ℚ) (pt : PPoint)
    (h : s.lastShownAt = some t)
    (hpt : s.points.get? s.currentIndex = some pt) :
    (RehearsalPlayer.destroy s now).1.playTimer = none ∧
      (RehearsalPlayer.destroy s now).1.isPlaying = false ∧
      (RehearsalPlayer.destroy s now).2.get? s.currentIndex =
        some { pt with dwellSeconds := some ((now - t) / 1000) } := by
  unfold RehearsalPlayer.destroy RehearsalPlayer.recordCurrentDwell
    RehearsalPlayer.pause
  simp only [h, hpt]
  refine ⟨trivial, trivial, ?_⟩
  rw [List.get?_eq_getElem?, List.getElem?_set_self', ← List.get?_eq_getElem?,
    hpt]
  rfl

/-- A concrete mid-playback state: point 0 shown at t=1000, timer armed. -/
def c2State : PState :=
  { points := [pA, pB], currentIndex := 0, isPlaying := true,
    playTimer := some 8000, speed := 1, lastShownAt := some 1000 }

/-- C2 witness: destroying `c2State` at t=3000 cancels the timer and
records a 2-second dwell on point 0. -/
theorem c2_witness :
    c2State.lastShownAt = some 1000 ∧
      c2State.points.get? c2State.currentIndex = some pA ∧
      ((RehearsalPlayer.destroy c2State 3000).1.playTimer = none ∧
        (RehearsalPlayer.destroy c2State 3000).1.isPlaying = false ∧
        (RehearsalPlayer.destroy c2State 3000).2.get? c2State.currentIndex =
          some { pA with dwellSeconds := some ((3000 - 1000) / 1000) }) :=
  ⟨rfl, rfl, c2_destroy_records c2State 3000 1000 pA rfl rfl⟩

/-! ### C4 — playback operations before init / with an empty list -/

/-- C4 counterexample: `init` with an empty decision-point list faults
(the source reads `points[0].lat` with no guard), contradicting the
claim that initializing with an empty list succeeds. -/
theorem c4_empty_init_counterexample :
    RehearsalPlayer.init [] 0 = Except.error () := rfl

/-- C4 amended: with no points loaded (the pre-`init` module state),
`play`, `next`, `prev`, `goTo` and `pause` are no-ops and `setSpeed`
changes only the stored speed — none of them fault; but `init` itself
with an empty list throws. -/
theorem c4_empty_noop (s : PState) (now : ℚ) (i : ℕ) (v : ℚ)
    (h1 : s.points = []) (h2 : s.isPlaying = false) (h3 : s.playTimer = none)
    (h4 : s.lastShownAt = none) :
    RehearsalPlayer.play s now = s ∧ RehearsalPlayer.next s now = s ∧
      RehearsalPlayer.prev s now = s ∧ RehearsalPlayer.goTo s i now = s ∧
      RehearsalPlayer.pause s = s ∧
      RehearsalPlayer.setSpeed s v now = { s with speed := v } := by
  obtain ⟨pts, ci, ip, pt, sp, ls⟩ := s
  simp only at h1 h2 h3 h4
  subst h1 h2 h3 h4
  refine ⟨rfl, ?_, ?_, ?_, rfl, ?_⟩
  · simp [RehearsalPlayer.next, RehearsalPlayer.nextF,
      RehearsalPlayer.recordCurrentDwell, RehearsalPlayer.pause]
  · simp [RehearsalPlayer.prev, RehearsalPlayer.showPoint,
      RehearsalPlayer.recordCurrentDwell]
  · simp [RehearsalPlayer.goTo, RehearsalPlayer.showPoint,
      RehearsalPlayer.recordCurrentDwell]
  · simp [RehearsalPlayer.setSpeed, RehearsalPlayer.next,
      RehearsalPlayer.nextF, RehearsalPlayer.recordCurrentDwell,
      RehearsalPlayer.pause]

/-- The module state before any `init` call. -/
def uninitState : PState :=
  { points := [], currentIndex := 0, isPlaying := false, playTimer := none,
    speed := 1, lastShownAt := none }

/-- C4 witness: the no-op bundle applied to the pre-init state. -/
theorem c4_witness :
    uninitState.points = [] ∧ uninitState.isPlaying = false ∧
      uninitState.playTimer = none ∧ uninitState.lastShownAt = none ∧
      (RehearsalPlayer.play uninitState 7 = uninitState ∧
        RehearsalPlayer.next uninitState 7 = uninitState ∧
        RehearsalPlayer.prev uninitState 7 = uninitState ∧
        RehearsalPlayer.goTo uninitState 3 7 = uninitState ∧
        RehearsalPlayer.pause uninitState = uninitState ∧
        RehearsalPlayer.setSpeed uninitState 2 7 =
          { uninitState with speed := 2 }) :=
  ⟨rfl, rfl, rfl, rfl, c4_empty_noop uninitState 7 3 2 rfl rfl rfl rfl⟩

/-! ### C10 — getState on an empty point list -/

/-- C10 counterexample: init two points, advance to index 1, destroy.
The resulting state has an empty point list but `currentIndex = 1`, so
`getState` reports `isFirst = false` — the claim's `isFirst = true` does
not hold for every empty-list state. -/
theorem c10_counterexample :
    (RehearsalPlayer.init [pA, pB] 1000).map (fun s =>
        RehearsalPlayer.getState
          (RehearsalPlayer.destroy (RehearsalPlayer.next s 3000) 5000).1) =
      Except.ok
        { currentIndex := 1, total := 0, point := none, isPlaying := false,
          speed := 1, progress := 0, isFirst := false, isLast := false } := by
  decide

/-- C10 amended: `getState` on an empty point list is total: progress 0
(the ratio formula is never evaluated with total 0), point `none`, total
0, `isLast = false`; `isFirst` equals `currentIndex == 0`, which is not
necessarily true (e.g. after `destroy` from a later index). -/
theorem c10_empty_getState (s : PState) (h : s.points = []) :
    RehearsalPlayer.getState s =
      { currentIndex := s.currentIndex, total := 0, point := none,
        isPlaying := s.isPlaying, speed := s.speed, progress := 0,
        isFirst := s.currentIndex == 0, isLast := false } := by
  simp [RehearsalPlayer.getState, h]

/-! ### C3 — malformed step data -/

/-- A raw step with no start coordinate. -/
def badRaw : RawStep :=
  { start_location := none, end_location := some ⟨0, 0⟩,
    distance := some ⟨100, "100 m".toList⟩,
    instructions := some "Turn left onto High Street".toList, maneuver := none }

/-- A route containing `badRaw`. -/
def badRoute : Route := { legs := [{ steps := [badRaw], distanceValue := some 100 }] }

/-- C3 counterexample: a step missing its coordinates is not treated
permissively — `flattenSteps` reads `step.start_location.lat()` with no
guard, so `analyze` on a route containing such a step throws instead of
degrading to exclusion. -/
theorem c3_missing_coord_counterexample :
    RouteAnalyzer.analyze hdg0 d0 (some { routes := [badRoute] }) =
      Except.error () := rfl

/-- The flattened form of a step with coordinates but neither distance
nor instruction. -/
def c3Flat (hdg : Coord → Coord → ℚ) (li si oi : ℕ) (sl el : Coord) : FStep :=
  { orderIndex := oi, legIndex := li, stepIndex := si, heading := hdg sl el,
    lat := sl.lat, lng := sl.lng, instructionHtml := [], instruction := [],
    distanceMeters := 0, distanceText := [], maneuver := none }

/-- C3 amended: for a step with coordinates present, a missing
`distance` defaults to `distanceMeters = 0` and empty distance text, a
missing `instructions` defaults to the empty string, and such a step
(with no maneuver code) matches no pattern and scores 0 with
`exclude = true` in every context; but a step missing coordinate data
makes the pipeline throw (see the counterexample). -/
theorem c3_permissive_defaults (hdg : Coord → Coord → ℚ) (li si oi : ℕ)
    (sl el : Coord) (txt : List Char) (mv : Option (List Char))
    (nxt : Option FStep) :
    RouteAnalyzer.flattenStep1 hdg li si oi
        { start_location := some sl, end_location := some el, distance := none,
          instructions := some txt, maneuver := mv } =
      Except.ok
        { orderIndex := oi, legIndex := li, stepIndex := si,
          heading := hdg sl el, lat := sl.lat, lng := sl.lng,
          instructionHtml := txt, instruction := RouteAnalyzer.stripHtml txt,
          distanceMeters := 0, distanceText := [], maneuver := mv } ∧
      RouteAnalyzer.flattenStep1 hdg li si oi
          { start_location := some sl, end_location := some el,
            distance := none, instructions := none, maneuver := none } =
        Except.ok (c3Flat hdg li si oi sl el) ∧
      (RouteAnalyzer.scoreStep (c3Flat hdg li si oi sl el) nxt).score = 0 ∧
      (RouteAnalyzer.scoreStep (c3Flat hdg li si oi sl el) nxt).exclude = true := by
  refine ⟨rfl, rfl, ?_, ?_⟩ <;> cases nxt <;> rfl

/-! ### Player helper lemmas (shared) -/

theorem recordCurrentDwell_speed (s : PState) (now : ℚ) :
    (RehearsalPlayer.recordCurrentDwell s now).speed = s.speed := by
  unfold RehearsalPlayer.recordCurrentDwell
  split <;> rfl

theorem recordCurrentDwell_playTimer (s : PState) (now : ℚ) :
    (RehearsalPlayer.recordCurrentDwell s now).playTimer = s.playTimer := by
  unfold RehearsalPlayer.recordCurrentDwell
  split <;> rfl

theorem recordCurrentDwell_currentIndex (s : PState) (now : ℚ) :
    (RehearsalPlayer.recordCurrentDwell s now).currentIndex = s.currentIndex := by
  unfold RehearsalPlayer.recordCurrentDwell
  split <;> rfl

theorem recordCurrentDwell_isPlaying (s : PState) (now : ℚ) :
    (RehearsalPlayer.recordCurrentDwell s now).isPlaying = s.isPlaying := by
  unfold RehearsalPlayer.recordCurrentDwell
  split <;> rfl

theorem recordCurrentDwell_length (s : PState) (now : ℚ) :
    (RehearsalPlayer.recordCurrentDwell s now).points.length =
      s.points.length := by
  unfold RehearsalPlayer.recordCurrentDwell
  split <;> simp

theorem showPoint_speed (s : PState) (idx : ℕ) (now : ℚ) :
    (RehearsalPlayer.showPoint s idx now).speed = s.speed := by
  unfold RehearsalPlayer.showPoint
  split
  · rfl
  · simp [recordCurrentDwell_speed]

theorem showPoint_playTimer (s : PState) (idx : ℕ) (now : ℚ) :
    (RehearsalPlayer.showPoint s idx now).playTimer = s.playTimer := by
  unfold RehearsalPlayer.showPoint
  split
  · rfl
  · simp [recordCurrentDwell_playTimer]

theorem showPoint_isPlaying (s : PState) (idx : ℕ) (now : ℚ) :
    (RehearsalPlayer.showPoint s idx now).isPlaying = s.isPlaying := by
  unfold RehearsalPlayer.showPoint
  split
  · rfl
  · simp [recordCurrentDwell_isPlaying]

theorem showPoint_length (s : PState) (idx : ℕ) (now : ℚ) :
    (RehearsalPlayer.showPoint s idx now).points.length = s.points.length := by
  unfold RehearsalPlayer.showPoint
  split
  · rfl
  · simp [recordCurrentDwell_length]

theorem showPoint_currentIndex (s : PState) (idx : ℕ) (now : ℚ) :
    (RehearsalPlayer.showPoint s idx now).currentIndex =
      if s.points.length ≤ idx then s.currentIndex else idx := by
  unfold RehearsalPlayer.showPoint
  split
  · simp_all
  · simp_all

/-- Joint invariant of the `next`/`scheduleNext` chain under the skip
sentinel: with `speed = 0` and no pending timer, the chain never arms a
timer, never changes the speed, and never moves the index backwards. -/
theorem speed0_chain (f : ℕ) :
    ∀ (s : PState) (now : ℚ), s.speed = 0 → s.playTimer = none →
      ((RehearsalPlayer.nextF f s now).speed = 0 ∧
        (RehearsalPlayer.nextF f s now).playTimer = none ∧
        s.currentIndex ≤ (RehearsalPlayer.nextF f s now).currentIndex) ∧
      ((RehearsalPlayer.scheduleNextF f s now).speed = 0 ∧
        (RehearsalPlayer.scheduleNextF f s now).playTimer = none ∧
        s.currentIndex ≤ (RehearsalPlayer.scheduleNextF f s now).currentIndex) := by
  induction f with
  | zero =>
      intro s now h1 h2
      exact ⟨⟨h1, h2, le_refl _⟩, ⟨h1, h2, le_refl _⟩⟩
  | succ f ih =>
      intro s now h1 h2
      constructor
      · simp only [RehearsalPlayer.nextF]
        by_cases hlt : s.currentIndex < s.points.length - 1
        · rw [if_pos hlt]
          set s1 := RehearsalPlayer.showPoint s (s.currentIndex + 1) now with hs1
          have e1 : s1.speed = 0 := by rw [hs1, showPoint_speed]; exact h1
          have e2 : s1.playTimer = none := by
            rw [hs1, showPoint_playTimer]; exact h2
          have e3 : s.currentIndex ≤ s1.currentIndex := by
            rw [hs1, showPoint_currentIndex]
            split <;> omega
          by_cases hp : s1.isPlaying = true
          · rw [if_pos hp]
            obtain ⟨ha, hb, hc⟩ := (ih s1 now e1 e2).2
            exact ⟨ha, hb, le_trans e3 hc⟩
          · rw [if_neg hp]
            exact ⟨e1, e2, e3⟩
        · rw [if_neg hlt]
          refine ⟨?_, rfl, ?_⟩
          · simp [RehearsalPlayer.pause, recordCurrentDwell_speed, h1]
          · simp [RehearsalPlayer.pause, recordCurrentDwell_currentIndex]
      · simp only [RehearsalPlayer.scheduleNextF]
        by_cases hip : (!({ s with playTimer := none } : PState).isPlaying) = true
        · rw [if_pos hip]
          exact ⟨h1, rfl, le_refl _⟩
        · rw [if_neg hip]
          by_cases hend : ({ s with playTimer := none } : PState).points.length - 1 ≤
              ({ s with playTimer := none } : PState).currentIndex
          · rw [if_pos hend]
            refine ⟨?_, rfl, ?_⟩
            · simp [RehearsalPlayer.pause, recordCurrentDwell_speed, h1]
            · simp [RehearsalPlayer.pause, recordCurrentDwell_currentIndex]
          · rw [if_neg hend,
              if_pos (show ({ s with playTimer := none } : PState).speed = 0 from h1)]
            exact (ih { s with playTimer := none } now h1 rfl).1

/-! ### C7 — auto-advance delay and skip semantics -/

/-- C7: while playing and not at the last point, with a speed from
{0.5, 1, 2} the armed auto-advance delay is `5000 / speed` ms, times
1.6 when the current point's `isDecisionPoint` flag is set; and
`setSpeed(0)` while playing bypasses the delay entirely: the index
advances immediately and no timer is left pending. -/
theorem c7_delay_and_skip :
    (∀ (s : PState) (now : ℚ) (pt : PPoint),
        s.isPlaying = true → s.currentIndex < s.points.length - 1 →
        (s.speed = 1 / 2 ∨ s.speed = 1 ∨ s.speed = 2) →
        s.points.get? s.currentIndex = some pt →
        (RehearsalPlayer.scheduleNext s now).playTimer =
          some (if pt.isDecisionPoint then 5000 / s.speed * (8 / 5)
                else 5000 / s.speed)) ∧
      (∀ (s : PState) (now : ℚ),
        s.isPlaying = true → s.currentIndex < s.points.length - 1 →
        s.currentIndex < (RehearsalPlayer.setSpeed s 0 now).currentIndex ∧
          (RehearsalPlayer.setSpeed s 0 now).playTimer = none) := by
  constructor
  · intro s now pt hp hlt hs hpt
    have hne : ¬s.speed = 0 := by
      rcases hs with h | h | h <;> rw [h] <;> norm_num
    have hend : ¬(s.points.length - 1 ≤ s.currentIndex) := by omega
    have hrw : RehearsalPlayer.scheduleNext s now =
        RehearsalPlayer.scheduleNextF (Nat.succ (2 * s.points.length + 3)) s now :=
      rfl
    rw [hrw]
    simp only [RehearsalPlayer.scheduleNextF]
    rw [if_neg (by simp [hp]), if_neg hend, if_neg hne]
    rw [hpt]
    rfl
  · intro s now hp hlt
    have hrw : RehearsalPlayer.setSpeed s 0 now =
        RehearsalPlayer.nextF (Nat.succ (2 * s.points.length + 3))
          { s with speed := 0, playTimer := none } now := by
      unfold RehearsalPlayer.setSpeed
      rw [if_pos (by simp [hp])]
      rfl
    rw [hrw]
    simp only [RehearsalPlayer.nextF]
    rw [if_pos (show ({ s with speed := 0, playTimer := none } : PState).currentIndex <
      ({ s with speed := 0, playTimer := none } : PState).points.length - 1 from hlt)]
    set s1 := RehearsalPlayer.showPoint
      { s with speed := 0, playTimer := none }
      (s.currentIndex + 1) now with hs1
    have e0 : s1.currentIndex = s.currentIndex + 1 := by
      rw [hs1, showPoint_currentIndex]
      exact if_neg (by simp; omega)
    have e1 : s1.speed = 0 := by rw [hs1, showPoint_speed]
    have e2 : s1.playTimer = none := by rw [hs1, showPoint_playTimer]
    have e3 : s1.isPlaying = true := by rw [hs1, showPoint_isPlaying]; exact hp
    rw [if_pos e3]
    obtain ⟨_, hb, hc⟩ := (speed0_chain _ s1 now e1 e2).2
    exact ⟨by omega, hb⟩

/-- A playing three-point state (current point is a decision point). -/
def c7State : PState :=
  { points := [pA, pB, pA], currentIndex := 0, isPlaying := true,
    playTimer := none, speed := 2, lastShownAt := some 0 }

/-- C7 witness: on `c7State` the armed delay is `5000 / 2 * 1.6 = 4000`
ms, and `setSpeed(0)` advances immediately leaving no pending timer. -/
theorem c7_witness :
    (c7State.isPlaying = true ∧
        c7State.currentIndex < c7State.points.length - 1 ∧
        c7State.speed = 2 ∧
        c7State.points.get? c7State.currentIndex = some pA) ∧
      (RehearsalPlayer.scheduleNext c7State 0).playTimer =
        some (if pA.isDecisionPoint then 5000 / c7State.speed * (8 / 5)
              else 5000 / c7State.speed) ∧
      (c7State.currentIndex < (RehearsalPlayer.setSpeed c7State 0 0).currentIndex ∧
        (RehearsalPlayer.setSpeed c7State 0 0).playTimer = none) :=
  ⟨⟨rfl, by decide, rfl, rfl⟩,
    c7_delay_and_skip.1 c7State 0 pA rfl (by decide) (Or.inr (Or.inr rfl)) rfl,
    c7_delay_and_skip.2 c7State 0 rfl (by decide)⟩

/-! ### C8 — threshold consistency -/

/-- C8: in every successful `analyze` output, `isDecisionPoint` is true
exactly when the point's score is at least 8. -/
theorem c8_threshold_consistency (hdg : Coord → Coord → ℚ)
    (d : ℚ → ℚ → ℚ → ℚ → ℚ) (result : Option DirectionsResult)
    (out : List DecisionPoint)
    (hok : RouteAnalyzer.analyze hdg d result = Except.ok out) :
    ∀ p ∈ out, (p.isDecisionPoint = true ↔ 8 ≤ p.score) := by
  intro p hp
  cases result with
  | none =>
      have h2 : Except.ok ([] : List DecisionPoint) = Except.ok out := hok
      cases h2
      exact absurd hp (List.not_mem_nil p)
  | some res =>
      obtain ⟨routes⟩ := res
      cases routes with
      | nil =>
          have h2 : Except.ok ([] : List DecisionPoint) = Except.ok out := hok
          cases h2
          exact absurd hp (List.not_mem_nil p)
      | cons route rest =>
          have h2 : (RouteAnalyzer.flattenSteps hdg route).bind
              (fun flat => Except.ok
                (((RouteAnalyzer.selectRehearsalSteps d
                    (RouteAnalyzer.scoreSteps flat) route).enum).map
                  fun q => RouteAnalyzer.mkDP q.1 q.2)) = Except.ok out := hok
          cases hf : RouteAnalyzer.flattenSteps hdg route with
          | error e =>
              rw [hf] at h2
              injection h2
          | ok flat =>
              rw [hf] at h2
              injection h2 with h3
              subst h3
              simp only [List.mem_map] at hp
              obtain ⟨a, _, rfl⟩ := hp
              simp [RouteAnalyzer.mkDP, RouteAnalyzer.DECISION_SCORE_THRESHOLD]

/-- C8 witness: the single point `analyze` produces from `wResult` has
score 8 and `isDecisionPoint = true`. -/
theorem c8_witness : wDP.isDecisionPoint = true ↔ 8 ≤ wDP.score :=
  c8_threshold_consistency hdg0 d0 (some wResult) [wDP] (by decide) wDP
    (List.mem_singleton.mpr rfl)

/-- An empty-list state at a non-initial index (reachable by
init → next → destroy). -/
def c10State : PState :=
  { points := [], currentIndex := 1, isPlaying := false, playTimer := none,
    speed := 1, lastShownAt := none }

/-- C10 witness: the amended description applied to `c10State`. -/
theorem c10_witness :
    c10State.points = [] ∧
      RehearsalPlayer.getState c10State =
        { currentIndex := c10State.currentIndex, total := 0, point := none,
          isPlaying := c10State.isPlaying, speed := c10State.speed,
          progress := 0, isFirst := c10State.currentIndex == 0,
          isLast := false } :=
  ⟨rfl, c10_empty_getState c10State rfl⟩

/-! ### Selection machinery shared by C6 and C9 -/

/-- The pairwise guarantee established by the greedy loop, in the
orientation in which `isTooClose` checks it (`b` is the later-accepted
candidate). -/
def Qd (d : ℚ → ℚ → ℚ → ℚ → ℚ) (a b : SStep) : Prop :=
  ¬(d b.lat b.lng a.lat a.lng < SPACING_METERS)

/-- The claim-facing spacing relation: any two non-lead-in points are at
least `SPACING_METERS` apart. -/
def Rsel (d : ℚ → ℚ → ℚ → ℚ → ℚ) (a b : SStep) : Prop :=
  a.isLeadIn = false → b.isLeadIn = false →
    SPACING_METERS ≤ d a.lat a.lng b.lat b.lng

/-- Every lead-in point in the list is accompanied by the junction it
precedes: a non-lead-in entry at the next original order index. -/
def leadCovered (l : List SStep) : Prop :=
  ∀ p ∈ l, p.isLeadIn = true →
    ∃ q ∈ l, q.isLeadIn = false ∧ q.orderIndex = p.orderIndex + 1

theorem Rsel_symm (d : ℚ → ℚ → ℚ → ℚ → ℚ)
    (hsym : ∀ a b c e, d a b c e = d c e a b) : Symmetric (Rsel d) := by
  intro a b hab h1 h2
  rw [hsym]
  exact hab h2 h1

theorem leadCovered_perm {l l' : List SStep} (hp : l.Perm l')
    (hc : leadCovered l) : leadCovered l' := by
  intro p hpmem hpl
  obtain ⟨q, hq, hq2⟩ := hc p (hp.mem_iff.mpr hpmem) hpl
  exact ⟨q, hp.mem_iff.mp hq, hq2⟩

theorem isTooClose_false {d : ℚ → ℚ → ℚ → ℚ → ℚ} {c : SStep}
    {sel : List SStep} (h : ¬RouteAnalyzer.isTooClose d c sel = true) :
    ∀ e ∈ sel, ¬(d c.lat c.lng e.lat e.lng < SPACING_METERS) := by
  intro e he
  simp only [RouteAnalyzer.isTooClose, List.any_eq_true, not_exists, not_and] at h
  have := h e he
  simpa using this

theorem greedyPick_sublist (d : ℚ → ℚ → ℚ → ℚ → ℚ) (t : ℤ) :
    ∀ (rest acc : List SStep),
      (RouteAnalyzer.greedyPick d t acc rest).Sublist (acc ++ rest) := by
  intro rest
  induction rest with
  | nil =>
      intro acc
      simp [RouteAnalyzer.greedyPick]
  | cons c rest ih =>
      intro acc
      simp only [RouteAnalyzer.greedyPick]
      split
      · exact List.sublist_append_left acc (c :: rest)
      · split
        · exact (ih acc).trans
            ((List.sublist_cons_self c rest).append_left acc)
        · refine (ih (acc ++ [c])).trans ?_
          rw [List.append_assoc]
          exact List.Sublist.refl _

theorem greedyPick_pairwise (d : ℚ → ℚ → ℚ → ℚ → ℚ) (t : ℤ) :
    ∀ (rest acc : List SStep), List.Pairwise (Qd d) acc →
      List.Pairwise (Qd d) (RouteAnalyzer.greedyPick d t acc rest) := by
  intro rest
  induction rest with
  | nil =>
      intro acc hacc
      simpa [RouteAnalyzer.greedyPick] using hacc
  | cons c rest ih =>
      intro acc hacc
      simp only [RouteAnalyzer.greedyPick]
      split
      · exact hacc
      · split
        · exact ih acc hacc
        · next hclose =>
            refine ih (acc ++ [c]) ?_
            rw [List.pairwise_append]
            refine ⟨hacc, List.pairwise_singleton _ _, ?_⟩
            intro a ha b hb
            rw [List.mem_singleton] at hb
            subst hb
            exact isTooClose_false hclose a ha

theorem mapSet_of_absent (m : List SStep) (v : SStep)
    (h : ∀ x ∈ m, x.orderIndex ≠ v.orderIndex) :
    RouteAnalyzer.mapSet m v = m ++ [v] := by
  unfold RouteAnalyzer.mapSet
  rw [if_neg]
  simp only [List.any_eq_true, not_exists, not_and]
  intro x hx
  simpa using h x hx

theorem buildMains_eq (l : List SStep) :
    ∀ (m : List SStep),
      (∀ s ∈ l, ∀ x ∈ m, x.orderIndex ≠ s.orderIndex) →
      (l.map (fun s => s.orderIndex)).Nodup →
      RouteAnalyzer.buildMains l m = m ++ l.map RouteAnalyzer.mkMain := by
  induction l with
  | nil =>
      intro m _ _
      simp [RouteAnalyzer.buildMains]
  | cons s l ih =>
      intro m hd hn
      have hstep : RouteAnalyzer.mapSet m (RouteAnalyzer.mkMain s) =
          m ++ [RouteAnalyzer.mkMain s] :=
        mapSet_of_absent m _ (fun x hx => hd s (List.mem_cons_self s l) x hx)
      simp only [RouteAnalyzer.buildMains, List.foldl_cons] at ih ⊢
      rw [hstep, ih]
      · simp
      · intro t ht x hx
        rcases List.mem_append.mp hx with hx | hx
        · exact hd t (List.mem_cons_of_mem s ht) x hx
        · rw [List.mem_singleton] at hx
          subst hx
          simp only [List.map_cons, List.nodup_cons, List.mem_map] at hn
          intro heq
          exact hn.1 ⟨t, ht, by simpa using heq.symm⟩
      · simp only [List.map_cons, List.nodup_cons] at hn
        exact hn.2

theorem mapSetIfAbsent_cases (m : List SStep) (v : SStep) :
    RouteAnalyzer.mapSetIfAbsent m v = m ∨
      (RouteAnalyzer.mapSetIfAbsent m v = m ++ [v] ∧
        ∀ x ∈ m, x.orderIndex ≠ v.orderIndex) := by
  unfold RouteAnalyzer.mapSetIfAbsent
  split
  · exact Or.inl rfl
  · next h =>
      refine Or.inr ⟨rfl, ?_⟩
      simp only [List.any_eq_true, not_exists, not_and] at h
      intro x hx
      simpa using h x hx

theorem mapSetIfAbsent_nodupKeys (m : List SStep) (v : SStep)
    (h : (m.map (fun s => s.orderIndex)).Nodup) :
    ((RouteAnalyzer.mapSetIfAbsent m v).map (fun s => s.orderIndex)).Nodup := by
  rcases mapSetIfAbsent_cases m v with he | ⟨he, habs⟩
  · rw [he]; exact h
  · rw [he]
    simp only [List.map_append, List.map_singleton]
    rw [List.nodup_append]
    refine ⟨h, List.nodup_singleton _, ?_⟩
    intro a ha
    simp only [List.mem_map] at ha
    obtain ⟨x, hx, rfl⟩ := ha
    simp only [List.mem_singleton]
    exact habs x hx

theorem addLeadIns_decomp (steps : List SStep)
    (hlead : ∀ s li, RouteAnalyzer.getLeadInStep s steps = some li →
      s.orderIndex = li.orderIndex + 1) :
    ∀ (l m : List SStep),
      ∃ L, RouteAnalyzer.addLeadIns steps l m = m ++ L ∧
        ∀ x ∈ L, x.isLeadIn = true ∧
          ∃ q ∈ l, q.orderIndex = x.orderIndex + 1 := by
  intro l
  induction l with
  | nil =>
      intro m
      exact ⟨[], by simp [RouteAnalyzer.addLeadIns], by simp⟩
  | cons s l ih =>
      intro m
      cases hg : RouteAnalyzer.getLeadInStep s steps with
      | none =>
          obtain ⟨L, hL, hprop⟩ := ih m
          refine ⟨L, ?_, ?_⟩
          · simp only [RouteAnalyzer.addLeadIns, List.foldl_cons, hg]
            simpa [RouteAnalyzer.addLeadIns] using hL
          · intro x hx
            obtain ⟨h1, q, hq, hq2⟩ := hprop x hx
            exact ⟨h1, q, List.mem_cons_of_mem s hq, hq2⟩
      | some li =>
          rcases mapSetIfAbsent_cases m (RouteAnalyzer.mkLeadIn li) with
            he | ⟨he, _⟩
          · obtain ⟨L, hL, hprop⟩ := ih m
            refine ⟨L, ?_, ?_⟩
            · simp only [RouteAnalyzer.addLeadIns, List.foldl_cons, hg, he]
              simpa [RouteAnalyzer.addLeadIns] using hL
            · intro x hx
              obtain ⟨h1, q, hq, hq2⟩ := hprop x hx
              exact ⟨h1, q, List.mem_cons_of_mem s hq, hq2⟩
          · obtain ⟨L, hL, hprop⟩ := ih (m ++ [RouteAnalyzer.mkLeadIn li])
            refine ⟨RouteAnalyzer.mkLeadIn li :: L, ?_, ?_⟩
            · simp only [RouteAnalyzer.addLeadIns, List.foldl_cons, hg, he]
              simpa [RouteAnalyzer.addLeadIns, List.append_assoc] using hL
            · intro x hx
              rcases List.mem_cons.mp hx with hx | hx
              · subst hx
                exact ⟨rfl, s, List.mem_cons_self s l, hlead s li hg⟩
              · obtain ⟨h1, q, hq, hq2⟩ := hprop x hx
                exact ⟨h1, q, List.mem_cons_of_mem s hq, hq2⟩

theorem addLeadIns_nodupKeys (steps : List SStep) :
    ∀ (l m : List SStep), (m.map (fun s => s.orderIndex)).Nodup →
      ((RouteAnalyzer.addLeadIns steps l m).map (fun s => s.orderIndex)).Nodup := by
  intro l
  induction l with
  | nil =>
      intro m hm
      simpa [RouteAnalyzer.addLeadIns] using hm
  | cons s l ih =>
      intro m hm
      cases hg : RouteAnalyzer.getLeadInStep s steps with
      | none =>
          have := ih m hm
          simp only [RouteAnalyzer.addLeadIns, List.foldl_cons, hg]
          simpa [RouteAnalyzer.addLeadIns] using this
      | some li =>
          have := ih (RouteAnalyzer.mapSetIfAbsent m (RouteAnalyzer.mkLeadIn li))
            (mapSetIfAbsent_nodupKeys m _ hm)
          simp only [RouteAnalyzer.addLeadIns, List.foldl_cons, hg]
          simpa [RouteAnalyzer.addLeadIns] using this

theorem map_orderIndex_eq_range (steps : List SStep)
    (hidx : ∀ i (hi : i < steps.length), (steps.get ⟨i, hi⟩).orderIndex = i) :
    steps.map (fun s => s.orderIndex) = List.range steps.length := by
  refine List.ext_get (by simp) ?_
  intro n h1 h2
  simp only [List.get_eq_getElem, List.getElem_map, List.getElem_range]
  have := hidx n (by simpa using h1)
  simpa using this

theorem steps_nodupKeys (steps : List SStep)
    (hidx : ∀ i (hi : i < steps.length), (steps.get ⟨i, hi⟩).orderIndex = i) :
    (steps.map (fun s => s.orderIndex)).Nodup := by
  rw [map_orderIndex_eq_range steps hidx]
  exact List.nodup_range _

theorem getLeadInStep_orderIndex (steps : List SStep)
    (hidx : ∀ i (hi : i < steps.length), (steps.get ⟨i, hi⟩).orderIndex = i)
    (s li : SStep) (h : RouteAnalyzer.getLeadInStep s steps = some li) :
    s.orderIndex = li.orderIndex + 1 := by
  unfold RouteAnalyzer.getLeadInStep at h
  split at h
  · exact absurd h (by simp)
  · next hz =>
      split at h
      · exact absurd h (by simp)
      · next prev hprev =>
          split at h
          · rw [Option.some.injEq] at h
            subst h
            obtain ⟨hlt, hget⟩ := List.get?_eq_some.mp hprev
            have := hidx (s.orderIndex - 1) hlt
            rw [hget] at this
            omega
          · exact absurd h (by simp)

theorem mem_of_mem_steps_key (steps : List SStep)
    (hidx : ∀ i (hi : i < steps.length), (steps.get ⟨i, hi⟩).orderIndex = i)
    (q : SStep) (hq : q ∈ steps) :
    steps.get? q.orderIndex = some q := by
  obtain ⟨⟨i, hi⟩, rfl⟩ := List.mem_iff_get.mp hq
  rw [hidx i hi]
  exact List.get?_eq_get hi

theorem dropQueue_sublist (n : ℕ) :
    ∀ (queue res : List SStep),
      (RouteAnalyzer.dropQueue n res queue).Sublist res := by
  intro queue
  induction queue with
  | nil =>
      intro res
      simp [RouteAnalyzer.dropQueue]
  | cons q rest ih =>
      intro res
      simp only [RouteAnalyzer.dropQueue]
      split
      · exact (ih _).trans (List.filter_sublist res)
      · exact List.Sublist.refl res

theorem mem_dropQueue (n : ℕ) :
    ∀ (queue res : List SStep) (x : SStep), x ∈ res →
      (∀ qe ∈ queue, x.orderIndex ≠ qe.orderIndex) →
      x ∈ RouteAnalyzer.dropQueue n res queue := by
  intro queue
  induction queue with
  | nil =>
      intro res x hx _
      simpa [RouteAnalyzer.dropQueue] using hx
  | cons q rest ih =>
      intro res x hx hk
      simp only [RouteAnalyzer.dropQueue]
      split
      · refine ih _ x ?_ ?_
        · rw [List.mem_filter]
          refine ⟨hx, ?_⟩
          simpa using hk q (List.mem_cons_self q rest)
        · intro qe hqe
          exact hk qe (List.mem_cons_of_mem q hqe)
      · exact hx

theorem dropQueue_length (n : ℕ) :
    ∀ (queue res : List SStep) (x : SStep),
      x ∈ RouteAnalyzer.dropQueue n res queue →
      x.orderIndex ∈ queue.map (fun s => s.orderIndex) →
      (RouteAnalyzer.dropQueue n res queue).length ≤ n := by
  intro queue
  induction queue with
  | nil =>
      intro res x _ hk
      exact absurd hk (by simp)
  | cons q rest ih =>
      intro res x hx hk
      simp only [RouteAnalyzer.dropQueue] at hx ⊢
      rw [List.map_cons, List.mem_cons] at hk
      split
      · next hlen =>
          rw [if_pos hlen] at hx
          rcases hk with heq | hk
          · exfalso
            have hmem : x ∈ res.filter fun y => y.orderIndex != q.orderIndex :=
              (dropQueue_sublist n rest _).mem hx
            rw [List.mem_filter] at hmem
            have := hmem.2
            simp only [bne_iff_ne] at this
            exact this heq
          · exact ih _ x hx hk
      · next hlen => omega

theorem trim_pairwise {R : SStep → SStep → Prop} (hs : Symmetric R)
    (pts : List SStep) (h : List.Pairwise R pts) :
    List.Pairwise R (RouteAnalyzer.trimToMaxPoints pts) := by
  unfold RouteAnalyzer.trimToMaxPoints
  dsimp only
  have h1 : List.Pairwise R
      (RouteAnalyzer.dropQueue 12 pts
        (List.insertionSort RouteAnalyzer.scoreAsc
          (pts.filter fun pt => pt.isLeadIn))) :=
    List.Pairwise.sublist (dropQueue_sublist _ _ _) h
  split
  · exact ((List.perm_insertionSort _ _).pairwise_iff
      (fun {x y} hxy => hs hxy)).mpr
      (List.Pairwise.sublist (dropQueue_sublist _ _ _) h1)
  · exact ((List.perm_insertionSort _ _).pairwise_iff
      (fun {x y} hxy => hs hxy)).mpr h1

theorem trim_leadCovered (pts : List SStep)
    (hn : (pts.map (fun s => s.orderIndex)).Nodup)
    (hc : leadCovered pts) :
    leadCovered (RouteAnalyzer.trimToMaxPoints pts) := by
  unfold RouteAnalyzer.trimToMaxPoints
  dsimp only
  set LQ := List.insertionSort RouteAnalyzer.scoreAsc
    (pts.filter fun pt => pt.isLeadIn) with hLQ
  set res1 := RouteAnalyzer.dropQueue 12 pts LQ with hres1
  have hres1_sub : res1.Sublist pts := dropQueue_sublist _ _ _
  have hforce : ∀ x ∈ res1, x.isLeadIn = true → res1.length ≤ 12 := by
    intro x hx hxl
    have hxpts : x ∈ pts := List.Sublist.mem hx hres1_sub
    have hkey : x.orderIndex ∈ LQ.map (fun s => s.orderIndex) := by
      have hxf : x ∈ pts.filter (fun pt => pt.isLeadIn) :=
        List.mem_filter.mpr ⟨hxpts, by simp [hxl]⟩
      have hperm := List.perm_insertionSort RouteAnalyzer.scoreAsc
        (pts.filter fun pt => pt.isLeadIn)
      exact List.mem_map.mpr ⟨x, hperm.mem_iff.mpr hxf, rfl⟩
    exact dropQueue_length 12 LQ pts x hx hkey
  split
  · next hgt =>
      intro p hp hpl
      exfalso
      have hp2 : p ∈ RouteAnalyzer.dropQueue 12 res1
          (List.insertionSort RouteAnalyzer.scoreAsc
            (res1.filter fun pt => !pt.isLeadIn)) :=
        (List.perm_insertionSort _ _).mem_iff.mp hp
      have hp3 : p ∈ res1 := List.Sublist.mem hp2 (dropQueue_sublist _ _ _)
      have := hforce p hp3 hpl
      omega
  · next hle =>
      intro p hp hpl
      have hp1 : p ∈ res1 := (List.perm_insertionSort _ _).mem_iff.mp hp
      have hppts : p ∈ pts := List.Sublist.mem hp1 hres1_sub
      obtain ⟨q, hq, hql, hqo⟩ := hc p hppts hpl
      have hqres1 : q ∈ res1 := by
        refine mem_dropQueue 12 LQ pts q hq ?_
        intro qe hqe heq
        have hqe_f : qe ∈ pts.filter (fun pt => pt.isLeadIn) :=
          (List.perm_insertionSort _ _).mem_iff.mp hqe
        rw [List.mem_filter] at hqe_f
        have hqeq : q = qe := List.inj_on_of_nodup_map hn hq hqe_f.1 heq
        rw [hqeq] at hql
        rw [hql] at hqe_f
        exact absurd hqe_f.2 (by simp)
      exact ⟨q, (List.perm_insertionSort _ _).mem_iff.mpr hqres1, hql, hqo⟩

theorem pairwise_rsel_of_leadIn (d : ℚ → ℚ → ℚ → ℚ → ℚ) (L : List SStep)
    (h : ∀ x ∈ L, x.isLeadIn = true) : List.Pairwise (Rsel d) L := by
  induction L with
  | nil => exact List.Pairwise.nil
  | cons a L ih =>
      refine List.Pairwise.cons ?_ (ih fun x hx => h x (List.mem_cons_of_mem a hx))
      intro b _ h1 _
      rw [h a (List.mem_cons_self a L)] at h1
      cases h1

theorem select_pairwise (d : ℚ → ℚ → ℚ → ℚ → ℚ) (steps : List SStep)
    (route : Route)
    (hsym : ∀ a b c e, d a b c e = d c e a b)
    (hidx : ∀ i (hi : i < steps.length), (steps.get ⟨i, hi⟩).orderIndex = i) :
    List.Pairwise (Rsel d) (RouteAnalyzer.selectRehearsalSteps d steps route) := by
  have hsymR : Symmetric (Rsel d) := Rsel_symm d hsym
  unfold RouteAnalyzer.selectRehearsalSteps
  dsimp only
  set cands := steps.filter (fun s => decide (0 < s.score) && !s.exclude)
    with hcands
  set sorted := List.insertionSort RouteAnalyzer.selBefore cands with hsorted
  set SM := RouteAnalyzer.greedyPick d (RouteAnalyzer.getTargetCount route) []
    sorted with hSM
  have hnodup_steps := steps_nodupKeys steps hidx
  have hnodup_cands : (cands.map (fun s => s.orderIndex)).Nodup :=
    List.Nodup.sublist (List.Sublist.map _ (List.filter_sublist steps))
      hnodup_steps
  have hperm_sorted : sorted.Perm cands := List.perm_insertionSort _ _
  have hnodup_sorted : (sorted.map (fun s => s.orderIndex)).Nodup :=
    ((hperm_sorted.map _).nodup_iff).mpr hnodup_cands
  have hsub_SM : SM.Sublist sorted := by
    have := greedyPick_sublist d (RouteAnalyzer.getTargetCount route) sorted []
    simpa using this
  have hnodup_SM : (SM.map (fun s => s.orderIndex)).Nodup :=
    List.Nodup.sublist (List.Sublist.map _ hsub_SM) hnodup_sorted
  have hmains : RouteAnalyzer.buildMains SM [] = SM.map RouteAnalyzer.mkMain := by
    have := buildMains_eq SM [] (by intro s _ x hx; cases hx) hnodup_SM
    simpa using this
  have hlead : ∀ s li, RouteAnalyzer.getLeadInStep s steps = some li →
      s.orderIndex = li.orderIndex + 1 := getLeadInStep_orderIndex steps hidx
  obtain ⟨L, hmerged, hLprop⟩ :=
    addLeadIns_decomp steps hlead SM (RouteAnalyzer.buildMains SM [])
  rw [hmains] at hmerged
  have hmains_keys : ((SM.map RouteAnalyzer.mkMain).map
      (fun s => s.orderIndex)).Nodup := by
    rw [List.map_map]
    exact hnodup_SM
  have hnodup_merged : (((SM.map RouteAnalyzer.mkMain) ++ L).map
      (fun s => s.orderIndex)).Nodup := by
    have := addLeadIns_nodupKeys steps SM (RouteAnalyzer.buildMains SM [])
      (by rw [hmains]; exact hmains_keys)
    rw [hmains, hmerged] at this
    exact this
  rw [hmains, hmerged]
  have hperm_res : (List.insertionSort RouteAnalyzer.ordAsc
      ((SM.map RouteAnalyzer.mkMain) ++ L)).Perm
      ((SM.map RouteAnalyzer.mkMain) ++ L) :=
    List.perm_insertionSort _ _
  have hnodup_res : ((List.insertionSort RouteAnalyzer.ordAsc
      ((SM.map RouteAnalyzer.mkMain) ++ L)).map
      (fun s => s.orderIndex)).Nodup :=
    ((hperm_res.map _).nodup_iff).mpr hnodup_merged
  have hpair_SM : List.Pairwise (Qd d) SM :=
    greedyPick_pairwise d _ sorted [] List.Pairwise.nil
  have hpair_mains : List.Pairwise (Rsel d) (SM.map RouteAnalyzer.mkMain) := by
    rw [List.pairwise_map]
    refine hpair_SM.imp ?_
    intro a b hab
    intro _ _
    have h1 : SPACING_METERS ≤ d b.lat b.lng a.lat a.lng := not_lt.mp hab
    rw [hsym] at h1
    exact h1
  have hpair_merged : List.Pairwise (Rsel d)
      ((SM.map RouteAnalyzer.mkMain) ++ L) := by
    rw [List.pairwise_append]
    refine ⟨hpair_mains,
      pairwise_rsel_of_leadIn d L (fun x hx => (hLprop x hx).1), ?_⟩
    intro a _ b hb _ h2
    rw [(hLprop b hb).1] at h2
    cases h2
  have hpair_res : List.Pairwise (Rsel d)
      (List.insertionSort RouteAnalyzer.ordAsc
        ((SM.map RouteAnalyzer.mkMain) ++ L)) :=
    (hperm_res.pairwise_iff (fun {x y} hxy => hsymR hxy)).mpr hpair_merged
  split
  · exact trim_pairwise hsymR _ hpair_res
  · exact hpair_res

theorem select_leadCovered (d : ℚ → ℚ → ℚ → ℚ → ℚ) (steps : List SStep)
    (route : Route)
    (hidx : ∀ i (hi : i < steps.length), (steps.get ⟨i, hi⟩).orderIndex = i) :
    leadCovered (RouteAnalyzer.selectRehearsalSteps d steps route) := by
  unfold RouteAnalyzer.selectRehearsalSteps
  dsimp only
  set cands := steps.filter (fun s => decide (0 < s.score) && !s.exclude)
    with hcands
  set sorted := List.insertionSort RouteAnalyzer.selBefore cands with hsorted
  set SM := RouteAnalyzer.greedyPick d (RouteAnalyzer.getTargetCount route) []
    sorted with hSM
  have hnodup_steps := steps_nodupKeys steps hidx
  have hnodup_cands : (cands.map (fun s => s.orderIndex)).Nodup :=
    List.Nodup.sublist (List.Sublist.map _ (List.filter_sublist steps))
      hnodup_steps
  have hperm_sorted : sorted.Perm cands := List.perm_insertionSort _ _
  have hnodup_sorted : (sorted.map (fun s => s.orderIndex)).Nodup :=
    ((hperm_sorted.map _).nodup_iff).mpr hnodup_cands
  have hsub_SM : SM.Sublist sorted := by
    have := greedyPick_sublist d (RouteAnalyzer.getTargetCount route) sorted []
    simpa using this
  have hnodup_SM : (SM.map (fun s => s.orderIndex)).Nodup :=
    List.Nodup.sublist (List.Sublist.map _ hsub_SM) hnodup_sorted
  have hmains : RouteAnalyzer.buildMains SM [] = SM.map RouteAnalyzer.mkMain := by
    have := buildMains_eq SM [] (by intro s _ x hx; cases hx) hnodup_SM
    simpa using this
  have hlead : ∀ s li, RouteAnalyzer.getLeadInStep s steps = some li →
      s.orderIndex = li.orderIndex + 1 := getLeadInStep_orderIndex steps hidx
  obtain ⟨L, hmerged, hLprop⟩ :=
    addLeadIns_decomp steps hlead SM (RouteAnalyzer.buildMains SM [])
  rw [hmains] at hmerged
  have hmains_keys : ((SM.map RouteAnalyzer.mkMain).map
      (fun s => s.orderIndex)).Nodup := by
    rw [List.map_map]
    exact hnodup_SM
  have hnodup_merged : (((SM.map RouteAnalyzer.mkMain) ++ L).map
      (fun s => s.orderIndex)).Nodup := by
    have := addLeadIns_nodupKeys steps SM (RouteAnalyzer.buildMains SM [])
      (by rw [hmains]; exact hmains_keys)
    rw [hmains, hmerged] at this
    exact this
  rw [hmains, hmerged]
  have hperm_res : (List.insertionSort RouteAnalyzer.ordAsc
      ((SM.map RouteAnalyzer.mkMain) ++ L)).Perm
      ((SM.map RouteAnalyzer.mkMain) ++ L) :=
    List.perm_insertionSort _ _
  have hnodup_res : ((List.insertionSort RouteAnalyzer.ordAsc
      ((SM.map RouteAnalyzer.mkMain) ++ L)).map
      (fun s => s.orderIndex)).Nodup :=
    ((hperm_res.map _).nodup_iff).mpr hnodup_merged
  have hcov_merged : leadCovered ((SM.map RouteAnalyzer.mkMain) ++ L) := by
    intro p hp hpl
    rcases List.mem_append.mp hp with hp | hp
    · exfalso
      obtain ⟨q, _, rfl⟩ := List.mem_map.mp hp
      simp [RouteAnalyzer.mkMain] at hpl
    · obtain ⟨_, q, hq, hqo⟩ := hLprop p hp
      refine ⟨RouteAnalyzer.mkMain q,
        List.mem_append_left _ (List.mem_map_of_mem _ hq), rfl, ?_⟩
      simpa [RouteAnalyzer.mkMain] using hqo
  have hcov_res : leadCovered
      (List.insertionSort RouteAnalyzer.ordAsc
        ((SM.map RouteAnalyzer.mkMain) ++ L)) :=
    leadCovered_perm hperm_res.symm hcov_merged
  split
  · exact trim_leadCovered _ hnodup_res hcov_res
  · exact hcov_res

/-! ### C9 — lead-in points are never orphaned -/

/-- C9: in every selection output (for a step list indexed by position,
as `flattenSteps` produces), every lead-in point is accompanied by a
non-lead-in point at the next original order index — the junction it
leads into; this survives trim-to-max because all lead-in points are
removed before any main point. -/
theorem c9_lead_in_not_orphaned (d : ℚ → ℚ → ℚ → ℚ → ℚ) (steps : List SStep)
    (route : Route)
    (hidx : ∀ i (hi : i < steps.length), (steps.get ⟨i, hi⟩).orderIndex = i) :
    ∀ p ∈ RouteAnalyzer.selectRehearsalSteps d steps route, p.isLeadIn = true →
      ∃ q ∈ RouteAnalyzer.selectRehearsalSteps d steps route,
        q.isLeadIn = false ∧ q.orderIndex = p.orderIndex + 1 :=
  select_leadCovered d steps route hidx

/-- A scored step list for the C9 witness: a non-scoring 100 m approach
step followed by a high-scoring merge. -/
def w9s0 : SStep :=
  { orderIndex := 0, legIndex := 0, stepIndex := 0, heading := 0, lat := 0,
    lng := 0, instructionHtml := "Head north on Elm Street".toList,
    instruction := "Head north on Elm Street".toList, distanceMeters := 100,
    distanceText := "100 m".toList, maneuver := none, score := 0,
    reasons := [], exclude := true, jtype := JType.complex, isPrimary := false,
    isLeadIn := false }

/-- The high-scoring merge step of the C9 witness. -/
def w9s1 : SStep :=
  { orderIndex := 1, legIndex := 0, stepIndex := 1, heading := 0, lat := 5,
    lng := 5, instructionHtml := "Merge onto the M4".toList,
    instruction := "Merge onto the M4".toList, distanceMeters := 300,
    distanceText := "300 m".toList, maneuver := none, score := 8,
    reasons := [Reason.laneCommitment, Reason.signage], exclude := false,
    jtype := JType.merge, isPrimary := false, isLeadIn := false }

/-- The C9 witness step list. -/
def w9steps : List SStep := [w9s0, w9s1]

/-- The C9 witness route (70 km, target count 12). -/
def w9route : Route := { legs := [{ steps := [], distanceValue := some 70000 }] }

/-- C9 witness: the selection marks `w9s0` as the lead-in of `w9s1`, and
the theorem produces the non-lead-in companion at order index 1. -/
theorem c9_witness :
    (∀ i (hi : i < w9steps.length), (w9steps.get ⟨i, hi⟩).orderIndex = i) ∧
      RouteAnalyzer.mkLeadIn w9s0 ∈
        RouteAnalyzer.selectRehearsalSteps d0 w9steps w9route ∧
      (RouteAnalyzer.mkLeadIn w9s0).isLeadIn = true ∧
      ∃ q ∈ RouteAnalyzer.selectRehearsalSteps d0 w9steps w9route,
        q.isLeadIn = false ∧
          q.orderIndex = (RouteAnalyzer.mkLeadIn w9s0).orderIndex + 1 :=
  ⟨by decide, by decide, rfl,
    c9_lead_in_not_orphaned d0 w9steps w9route (by decide)
      (RouteAnalyzer.mkLeadIn w9s0) (by decide) rfl⟩

/-! ### Flatten position lemmas (towards C6) -/

theorem flattenStep1_orderIndex (hdg : Coord → Coord → ℚ)
    (li si oi : ℕ) (s : RawStep) (f : FStep)
    (h : RouteAnalyzer.flattenStep1 hdg li si oi s = Except.ok f) :
    f.orderIndex = oi := by
  unfold RouteAnalyzer.flattenStep1 at h
  split at h
  · rw [Except.ok.injEq] at h
    subst h
    rfl
  · exact absurd h (by simp)

theorem flattenLegSteps_spec (hdg : Coord → Coord → ℚ) (li : ℕ) :
    ∀ (ss : List RawStep) (ord si : ℕ) (l : List FStep),
      RouteAnalyzer.flattenLegSteps hdg li ord si ss = Except.ok l →
      l.length = ss.length ∧
        ∀ i (hi : i < l.length), (l.get ⟨i, hi⟩).orderIndex = ord + i := by
  intro ss
  induction ss with
  | nil =>
      intro ord si l h
      simp only [RouteAnalyzer.flattenLegSteps, Except.ok.injEq] at h
      subst h
      exact ⟨rfl, by intro i hi; cases hi⟩
  | cons s ss ih =>
      intro ord si l h
      simp only [RouteAnalyzer.flattenLegSteps] at h
      cases hf : RouteAnalyzer.flattenStep1 hdg li si ord s with
      | error e =>
          rw [hf] at h
          injection h
      | ok f =>
          rw [hf] at h
          cases hrest : RouteAnalyzer.flattenLegSteps hdg li (ord + 1) (si + 1) ss with
          | error e =>
              rw [hrest] at h
              injection h
          | ok fs =>
              rw [hrest] at h
              injection h with h2
              subst h2
              obtain ⟨hlen, hpos⟩ := ih (ord + 1) (si + 1) fs hrest
              refine ⟨by simp [hlen], ?_⟩
              intro i hi
              match i with
              | 0 =>
                  simpa using flattenStep1_orderIndex hdg li si ord s f hf
              | Nat.succ j =>
                  have hj : j < fs.length := by
                    simp at hi
                    omega
                  have := hpos j hj
                  simp only [List.get_eq_getElem, List.getElem_cons_succ]
                  simp only [List.get_eq_getElem] at this
                  rw [this]
                  omega

theorem flattenLegs_spec (hdg : Coord → Coord → ℚ) :
    ∀ (legs : List Leg) (ord li : ℕ) (l : List FStep),
      RouteAnalyzer.flattenLegs hdg ord li legs = Except.ok l →
      ∀ i (hi : i < l.length), (l.get ⟨i, hi⟩).orderIndex = ord + i := by
  intro legs
  induction legs with
  | nil =>
      intro ord li l h
      simp only [RouteAnalyzer.flattenLegs, Except.ok.injEq] at h
      subst h
      intro i hi
      cases hi
  | cons leg legs ih =>
      intro ord li l h
      simp only [RouteAnalyzer.flattenLegs] at h
      cases h1 : RouteAnalyzer.flattenLegSteps hdg li ord 0 leg.steps with
      | error e =>
          rw [h1] at h
          injection h
      | ok fs =>
          rw [h1] at h
          cases h2 : RouteAnalyzer.flattenLegs hdg (ord + leg.steps.length)
              (li + 1) legs with
          | error e =>
              rw [h2] at h
              injection h
          | ok more =>
              rw [h2] at h
              injection h with h3
              subst h3
              obtain ⟨hlen, hpos1⟩ := flattenLegSteps_spec hdg li leg.steps ord 0 fs h1
              have hpos2 := ih (ord + leg.steps.length) (li + 1) more h2
              intro i hi
              by_cases hcase : i < fs.length
              · have : (fs ++ more).get ⟨i, hi⟩ = fs.get ⟨i, hcase⟩ := by
                  simp only [List.get_eq_getElem]
                  exact List.getElem_append_left hcase
                rw [this]
                exact hpos1 i hcase
              · have hile : fs.length ≤ i := Nat.le_of_not_lt hcase
                have hmore : i - fs.length < more.length := by
                  have := hi
                  simp only [List.length_append] at this
                  omega
                have : (fs ++ more).get ⟨i, hi⟩ =
                    more.get ⟨i - fs.length, hmore⟩ := by
                  simp only [List.get_eq_getElem]
                  exact List.getElem_append_right hile
                rw [this]
                rw [hpos2 (i - fs.length) hmore]
                omega

theorem scoreSteps_keys (l : List FStep) :
    (RouteAnalyzer.scoreSteps l).map (fun s => s.orderIndex) =
      l.map (fun f => f.orderIndex) := by
  induction l with
  | nil => rfl
  | cons e rest ih =>
      simp [RouteAnalyzer.scoreSteps, RouteAnalyzer.attachScore, ih]

theorem scoreSteps_length (l : List FStep) :
    (RouteAnalyzer.scoreSteps l).length = l.length := by
  have := congrArg List.length (scoreSteps_keys l)
  simpa using this

theorem scoreSteps_get_orderIndex :
    ∀ (l : List FStep) (i : ℕ) (hi : i < (RouteAnalyzer.scoreSteps l).length)
      (hif : i < l.length),
      ((RouteAnalyzer.scoreSteps l).get ⟨i, hi⟩).orderIndex =
        (l.get ⟨i, hif⟩).orderIndex := by
  intro l
  induction l with
  | nil =>
      intro i hi hif
      cases hif
  | cons e rest ih =>
      intro i hi hif
      match i with
      | 0 => rfl
      | Nat.succ j =>
          have hi2 : j < (RouteAnalyzer.scoreSteps rest).length := by
            have := Nat.lt_of_succ_lt_succ hi
            simpa [RouteAnalyzer.scoreSteps] using this
          have hif2 : j < rest.length := Nat.lt_of_succ_lt_succ hif
          have := ih j hi2 hif2
          simp only [List.get_eq_getElem] at this ⊢
          simpa [RouteAnalyzer.scoreSteps] using this

theorem scored_hidx (hdg : Coord → Coord → ℚ) (route : Route)
    (flat : List FStep)
    (h : RouteAnalyzer.flattenSteps hdg route = Except.ok flat) :
    ∀ i (hi : i < (RouteAnalyzer.scoreSteps flat).length),
      ((RouteAnalyzer.scoreSteps flat).get ⟨i, hi⟩).orderIndex = i := by
  intro i hi
  have hif : i < flat.length := by
    rw [scoreSteps_length] at hi
    exact hi
  rw [scoreSteps_get_orderIndex flat i hi hif]
  have := flattenLegs_spec hdg route.legs 0 0 flat h i hif
  simpa using this

/-! ### C6 — spacing invariant -/

/-- C6: in every successful `analyze` output, any two points that both
have `isLeadIn = false` are at least `SPACING_METERS` (150 m) apart as
measured by the pipeline's distance function (`haversineDistance`,
modelled as the parameter `d`, which is symmetric); lead-in points are
exempt. -/
theorem c6_spacing_invariant (hdg : Coord → Coord → ℚ)
    (d : ℚ → ℚ → ℚ → ℚ → ℚ) (result : Option DirectionsResult)
    (out : List DecisionPoint)
    (hsym : ∀ a b c e, d a b c e = d c e a b)
    (hok : RouteAnalyzer.analyze hdg d result = Except.ok out) :
    List.Pairwise
      (fun p q : DecisionPoint => p.isLeadIn = false → q.isLeadIn = false →
        RouteAnalyzer.SPACING_METERS ≤ d p.lat p.lng q.lat q.lng) out := by
  cases result with
  | none =>
      have h2 : Except.ok ([] : List DecisionPoint) = Except.ok out := hok
      cases h2
      exact List.Pairwise.nil
  | some res =>
      obtain ⟨routes⟩ := res
      cases routes with
      | nil =>
          have h2 : Except.ok ([] : List DecisionPoint) = Except.ok out := hok
          cases h2
          exact List.Pairwise.nil
      | cons route rest =>
          have h2 : (RouteAnalyzer.flattenSteps hdg route).bind
              (fun flat => Except.ok
                (((RouteAnalyzer.selectRehearsalSteps d
                    (RouteAnalyzer.scoreSteps flat) route).enum).map
                  fun q => RouteAnalyzer.mkDP q.1 q.2)) = Except.ok out := hok
          cases hf : RouteAnalyzer.flattenSteps hdg route with
          | error e =>
              rw [hf] at h2
              injection h2
          | ok flat =>
              rw [hf] at h2
              injection h2 with h3
              subst h3
              have hidx := scored_hidx hdg route flat hf
              have hsel := select_pairwise d (RouteAnalyzer.scoreSteps flat)
                route hsym hidx
              rw [List.pairwise_map]
              have henum : List.Pairwise
                  (fun a b : ℕ × SStep => Rsel d a.2 b.2)
                  (RouteAnalyzer.selectRehearsalSteps d
                    (RouteAnalyzer.scoreSteps flat) route).enum := by
                have h4 : List.Pairwise (Rsel d)
                    ((RouteAnalyzer.selectRehearsalSteps d
                      (RouteAnalyzer.scoreSteps flat) route).enum.map
                      Prod.snd) := by
                  rw [List.enum_map_snd]
                  exact hsel
                rw [List.pairwise_map] at h4
                exact h4
              refine henum.imp ?_
              intro a b hab h1 h2
              exact hab h1 h2

/-- First raw step of the C6 witness route (scores 8). -/
def w6RawA : RawStep :=
  { start_location := some ⟨0, 0⟩, end_location := some ⟨1, 1⟩,
    distance := some ⟨500, "500 m".toList⟩,
    instructions := some "Merge onto the M4".toList, maneuver := none }

/-- Second raw step of the C6 witness route (scores 8). -/
def w6RawB : RawStep :=
  { start_location := some ⟨5, 5⟩, end_location := some ⟨6, 6⟩,
    distance := some ⟨400, "400 m".toList⟩,
    instructions := some "Merge onto the A3".toList, maneuver := none }

/-- The C6 witness Directions result: one 70 km leg with two scoring
steps. -/
def w6Result : DirectionsResult :=
  { routes := [{ legs :=
      [{ steps := [w6RawA, w6RawB], distanceValue := some 70000 }] }] }

/-- The first decision point `analyze` produces from `w6Result`. -/
def w6DP0 : DecisionPoint :=
  { index := 0, stepIndex := 0, legIndex := 0, lat := 0, lng := 0, heading := 0,
    instruction := "Merge onto the M4".toList, jtype := JType.merge,
    typeLabel := "Merge".toList, isPrimary := false, isLeadIn := false,
    isDecisionPoint := true, commitmentLevel := CLevel.medium, score := 8,
    reasons := [Reason.laneCommitment, Reason.signage], distanceMeters := 500,
    distance := "500 m".toList, maneuver := none }

/-- The second decision point `analyze` produces from `w6Result`. -/
def w6DP1 : DecisionPoint :=
  { index := 1, stepIndex := 1, legIndex := 0, lat := 5, lng := 5, heading := 0,
    instruction := "Merge onto the A3".toList, jtype := JType.merge,
    typeLabel := "Merge".toList, isPrimary := false, isLeadIn := false,
    isDecisionPoint := true, commitmentLevel := CLevel.medium, score := 8,
    reasons := [Reason.laneCommitment, Reason.signage], distanceMeters := 400,
    distance := "400 m".toList, maneuver := none }

/-- C6 witness: `analyze` on `w6Result` yields two non-lead-in points
and the theorem delivers their pairwise spacing bound under the
(symmetric) witness distance function. -/
theorem c6_witness :
    (∀ a b c e, d0 a b c e = d0 c e a b) ∧
      RouteAnalyzer.analyze hdg0 d0 (some w6Result) =
        Except.ok [w6DP0, w6DP1] ∧
      List.Pairwise
        (fun p q : DecisionPoint => p.isLeadIn = false → q.isLeadIn = false →
          RouteAnalyzer.SPACING_METERS ≤ d0 p.lat p.lng q.lat q.lng)
        [w6DP0, w6DP1] :=
  ⟨fun _ _ _ _ => rfl, by decide,
    c6_spacing_invariant hdg0 d0 (some w6Result) [w6DP0, w6DP1]
      (fun _ _ _ _ => rfl) (by decide)⟩
